import Mathlib

/-!
Verification development for the Video-SRT-to-3D-Map telemetry core.

This file gives a shallow embedding, in Lean 4, of the algorithmic core of the
repository:

* `calculate_frame_timestamps` — `frame_extractor.py`, `FrameExtractor.calculate_frame_timestamps`
* `synchronize_and_interpolate` — `telemetry_sync.py`, `TelemetrySynchronizer.synchronize_and_interpolate`
* `interpolate_circular` — `telemetry_sync.py`, `TelemetrySynchronizer._interpolate_circular`
* `classify_flight_type`, `yaw_variation` — `telemetry_sync.py`, `TelemetrySynchronizer.classify_flight_type`
* `parseSRT`, `parse_block`, `parse_timestamp_line` — `srt_parser.py`, `SRTParser`

Modelling conventions:

* Python floats are embedded as exact numbers: `ℚ` wherever the source only does
  field arithmetic and comparisons (timestamps, linear interpolation), `ℝ` where
  the source uses transcendental functions (`sin`, `cos`, `arctan2`, `log`,
  `sqrt` in the circular interpolation and the classifier).
* A missing value (absent key / `None` / `NaN`) is `Option.none`.  An IEEE
  comparison `NaN < c`, which is `False` in the source, is embedded as a
  comparison on `Option` that is `False` on `none`.
* `pandas.DataFrame` columns become `List`s of `Option` values; a row of the
  telemetry frame is a `Sample` record.
* `pandas.concat(...).sort_values('timestamp')` is an ascending sort by
  timestamp; it is embedded with `List.insertionSort` (the source's quicksort is
  not stable either, and no property proved here depends on the order of rows
  with equal timestamps beyond sortedness and multiset equality).
* `DataFrame.merge(telemetry_df, on='timestamp', how='left')` duplicates a left
  row once per matching right row and fills with missing values when there is no
  match; `merged` below reproduces exactly that.
* `Series.interpolate(method='linear', limit_direction='both')` on a frame whose
  index was reset to `0..n-1` interpolates linearly in ROW POSITION (the pandas
  `linear` method treats the values as equally spaced), filling the ends with
  the nearest valid value; `posInterp` below reproduces exactly that.
* `np.interp` is embedded as `npInterp` (piecewise-linear with clamping at both
  ends, x-coordinates in `ℚ`, values in any division ring: `ℚ` for the
  position-based linear pass, `ℝ` for the sine/cosine components).
-/

namespace SRT3D

/-- One parsed telemetry record, as produced by `SRTParser._parse_block`:
a timestamp plus nine optional fields (missing = `none`). -/
structure Sample where
  timestamp : ℚ
  latitude : Option ℚ
  longitude : Option ℚ
  altitude : Option ℚ
  rel_altitude : Option ℚ
  gimbal_pitch : Option ℚ
  gimbal_yaw : Option ℚ
  yaw : Option ℚ
  iso : Option ℚ
  shutter : Option ℚ
  deriving Repr, DecidableEq

/-! ## Frame timetable builder (`FrameExtractor.calculate_frame_timestamps`) -/

/-- Embedding of `FrameExtractor.calculate_frame_timestamps`: raises
`ValueError("Frame rate must be positive")` when `frame_rate <= 0`, otherwise
returns `[i * (1.0 / frame_rate) for i in range(num_frames)]`. -/
def calculate_frame_timestamps (num_frames : ℕ) (frame_rate : ℚ) :
    Except String (List ℚ) :=
  if frame_rate ≤ 0 then Except.error "Frame rate must be positive"
  else Except.ok ((List.range num_frames).map (fun i : ℕ => (i : ℚ) * (1 / frame_rate)))

/-! ## `np.interp` and the pandas positional linear interpolation -/

/-- Embedding of `np.interp x xp fp` for an ascending list of sample points
`pts = zip xp fp`: clamp to the first value left of the data, to the last value
right of the data, and interpolate linearly inside each segment.  This is the
all-rational version used for the position-based linear columns.  `np.interp`
on an empty point list raises; that case is unreachable in the callers below
and is mapped to `0`. -/
def npInterpQ (x : ℚ) : List (ℚ × ℚ) → ℚ
  | [] => 0
  | [(_, y)] => y
  | (x1, y1) :: (x2, y2) :: rest =>
    if x ≤ x1 then y1
    else if x ≤ x2 then y1 + (x - x1) / (x2 - x1) * (y2 - y1)
    else npInterpQ x ((x2, y2) :: rest)

/-- The same `np.interp`, for real-valued samples over rational x-coordinates:
used for the sine/cosine components in the circular interpolation. -/
noncomputable def npInterpR (x : ℚ) : List (ℚ × ℝ) → ℝ
  | [] => 0
  | [(_, y)] => y
  | (x1, y1) :: (x2, y2) :: rest =>
    if x ≤ x1 then y1
    else if x ≤ x2 then y1 + (((x - x1) / (x2 - x1) : ℚ) : ℝ) * (y2 - y1)
    else npInterpR x ((x2, y2) :: rest)

/-- The valid (non-missing) entries of a column, as `(row position, value)`
pairs, positions counted from `i`.  This is the `~np.isnan` mask of the
source, kept in row order. -/
def validPointsFrom (i : ℕ) : List (Option ℚ) → List (ℕ × ℚ)
  | [] => []
  | none :: rest => validPointsFrom (i + 1) rest
  | some v :: rest => (i, v) :: validPointsFrom (i + 1) rest

/-- Valid entries of a column with their row positions. -/
def validPoints (vals : List (Option ℚ)) : List (ℕ × ℚ) := validPointsFrom 0 vals

/-- Embedding of `Series.interpolate(method='linear', limit_direction='both')`
on a series whose index is `0..n-1`: pandas' `linear` method ignores the
timestamps and interpolates in row position, filling leading and trailing
missing values with the nearest valid value.  A column with no valid value at
all is returned unchanged (stays all-missing). -/
def posInterp (vals : List (Option ℚ)) : List (Option ℚ) :=
  let pts := (validPoints vals).map (fun p => ((p.1 : ℚ), p.2))
  if pts = [] then vals
  else (List.range vals.length).map (fun i : ℕ => some (npInterpQ (i : ℚ) pts))

/-! ## The combined (telemetry ∪ frames) timeline of `synchronize_and_interpolate` -/

/-- Ascending-by-timestamp order on tagged timeline entries
(`true` = telemetry row, `false` = frame row). -/
def tsLE (a b : ℚ × Bool) : Prop := a.1 ≤ b.1

instance : DecidableRel tsLE := fun a b => inferInstanceAs (Decidable (a.1 ≤ b.1))

instance : IsTotal (ℚ × Bool) tsLE := ⟨fun a b => le_total a.1 b.1⟩

instance : IsTrans (ℚ × Bool) tsLE := ⟨fun _ _ _ => le_trans⟩

/-- The `pd.concat([...telemetry..., ...frames...]).sort_values('timestamp')`
step: tag each timestamp with its origin and sort ascending by timestamp. -/
def combined (samples : List Sample) (frames : List ℚ) : List (ℚ × Bool) :=
  List.insertionSort tsLE
    (samples.map (fun s => (s.timestamp, true)) ++ frames.map (fun t => (t, false)))

/-- One step of the left merge on `timestamp`: a timeline entry is duplicated
once per telemetry row with an equal timestamp, or kept once with missing
values when no telemetry row matches. -/
def matchedRows (samples : List Sample) (e : ℚ × Bool) :
    List (ℚ × Bool × Option Sample) :=
  match samples.filter (fun s => decide (s.timestamp = e.1)) with
  | [] => [(e.1, e.2, none)]
  | s :: ss => (s :: ss).map (fun m => (e.1, e.2, some m))

/-- The merged timeline: `combined.merge(telemetry_df, on='timestamp',
how='left')`. -/
def merged (samples : List Sample) (frames : List ℚ) :
    List (ℚ × Bool × Option Sample) :=
  (combined samples frames).flatMap (matchedRows samples)

/-- One column of the merged timeline: the field `f` of the matched telemetry
row, missing when there is no match or the field is missing there. -/
def colValues (f : Sample → Option ℚ) (rows : List (ℚ × Bool × Option Sample)) :
    List (Option ℚ) :=
  rows.map (fun r => r.2.2.bind f)

/-! ## Circular interpolation (`TelemetrySynchronizer._interpolate_circular`) -/

/-- Degrees to radians, `np.deg2rad`. -/
noncomputable def deg2rad (x : ℝ) : ℝ := x * Real.pi / 180

/-- Radians to degrees, `np.rad2deg`. -/
noncomputable def rad2deg (x : ℝ) : ℝ := x * 180 / Real.pi

/-- Embedding of `np.arctan2 y x`: the angle of the vector `(x, y)` in
`(-π, π]`, with `arctan2 0 0 = 0`. -/
noncomputable def arctan2 (y x : ℝ) : ℝ :=
  if 0 < x then Real.arctan (y / x)
  else if x < 0 then
    (if 0 ≤ y then Real.arctan (y / x) + Real.pi else Real.arctan (y / x) - Real.pi)
  else
    (if 0 < y then Real.pi / 2 else if y < 0 then -(Real.pi / 2) else 0)

/-- Embedding of numpy's `x % m` on floats (`m > 0`): the representative of `x`
modulo `m` in `[0, m)`. -/
noncomputable def npFmod (x m : ℝ) : ℝ := x - m * ⌊x / m⌋

/-- Embedding of `TelemetrySynchronizer._interpolate_circular`: keep the column
unchanged when no value is present; otherwise interpolate the sine and cosine
of the valid angles (in degrees) over the timestamps with `np.interp`,
recombine with `arctan2` and normalize into `[0, 360)`.  Every output entry is
then present. -/
noncomputable def interpolate_circular (timestamps : List ℚ)
    (angles : List (Option ℚ)) : List (Option ℝ) :=
  let valid := (timestamps.zip angles).filterMap
    (fun p => p.2.map (fun v => (p.1, v)))
  if valid = [] then angles.map (fun a => a.map (fun v => (v : ℝ)))
  else
    let sinPts := valid.map (fun p => (p.1, Real.sin (deg2rad (p.2 : ℝ))))
    let cosPts := valid.map (fun p => (p.1, Real.cos (deg2rad (p.2 : ℝ))))
    timestamps.map (fun t =>
      some (npFmod (rad2deg (arctan2 (npInterpR t sinPts) (npInterpR t cosPts))) 360))

/-! ## The synchronizer (`TelemetrySynchronizer.synchronize_and_interpolate`) -/

/-- One output row of `synchronize_and_interpolate`: the frame timestamp, the
five linearly interpolated columns (exact rationals), the two circularly
interpolated columns (reals, because of the trigonometry), and the two camera
columns that are carried through the merge without interpolation. -/
structure FrameRecord where
  timestamp : ℚ
  latitude : Option ℚ
  longitude : Option ℚ
  altitude : Option ℚ
  rel_altitude : Option ℚ
  gimbal_pitch : Option ℚ
  yaw : Option ℝ
  gimbal_yaw : Option ℝ
  iso : Option ℚ
  shutter : Option ℚ

/-- Embedding of `TelemetrySynchronizer.synchronize_and_interpolate`: build the
sorted combined timeline, left-merge the telemetry on equal timestamps,
interpolate the five linear columns in row position and the two yaw columns
circularly over the timestamps, then keep only the frame-tagged rows, in
timeline order. -/
noncomputable def synchronize_and_interpolate (samples : List Sample)
    (frames : List ℚ) : List FrameRecord :=
  let rows := merged samples frames
  let latC := posInterp (colValues Sample.latitude rows)
  let lonC := posInterp (colValues Sample.longitude rows)
  let altC := posInterp (colValues Sample.altitude rows)
  let relC := posInterp (colValues Sample.rel_altitude rows)
  let gpC := posInterp (colValues Sample.gimbal_pitch rows)
  let ts := rows.map (fun r => r.1)
  let yawC := interpolate_circular ts (colValues Sample.yaw rows)
  let gyawC := interpolate_circular ts (colValues Sample.gimbal_yaw rows)
  (rows.enum.filter (fun p => !p.2.2.1)).map (fun p =>
    { timestamp := p.2.1
      latitude := latC.getD p.1 none
      longitude := lonC.getD p.1 none
      altitude := altC.getD p.1 none
      rel_altitude := relC.getD p.1 none
      gimbal_pitch := gpC.getD p.1 none
      yaw := yawC.getD p.1 none
      gimbal_yaw := gyawC.getD p.1 none
      iso := p.2.2.2.bind Sample.iso
      shutter := p.2.2.2.bind Sample.shutter })

/-- The five linearly interpolated columns (`linear_columns` in the source). -/
inductive LinField
  | latitude
  | longitude
  | altitude
  | rel_altitude
  | gimbal_pitch
  deriving DecidableEq

/-- Input selector of a linear column. -/
def LinField.sel : LinField → Sample → Option ℚ
  | .latitude => Sample.latitude
  | .longitude => Sample.longitude
  | .altitude => Sample.altitude
  | .rel_altitude => Sample.rel_altitude
  | .gimbal_pitch => Sample.gimbal_pitch

/-- Output selector of a linear column. -/
def LinField.out : LinField → FrameRecord → Option ℚ
  | .latitude => FrameRecord.latitude
  | .longitude => FrameRecord.longitude
  | .altitude => FrameRecord.altitude
  | .rel_altitude => FrameRecord.rel_altitude
  | .gimbal_pitch => FrameRecord.gimbal_pitch

/-- The two circularly interpolated columns (`circular_columns` in the source). -/
inductive CircField
  | yaw
  | gimbal_yaw
  deriving DecidableEq

/-- Input selector of a circular column. -/
def CircField.sel : CircField → Sample → Option ℚ
  | .yaw => Sample.yaw
  | .gimbal_yaw => Sample.gimbal_yaw

/-- Output selector of a circular column. -/
def CircField.out : CircField → FrameRecord → Option ℝ
  | .yaw => FrameRecord.yaw
  | .gimbal_yaw => FrameRecord.gimbal_yaw

/-- Spec-side definition (from the spec's words, for comparison with the code):
standard piecewise-linear interpolation IN THE TIMESTAMP VARIABLE through a
list of `(timestamp, value)` points, clamped at both ends. -/
def specTimestampInterp (pts : List (ℚ × ℚ)) (t : ℚ) : ℚ := npInterpQ t pts

/-! ## Flight-type classifier (`TelemetrySynchronizer.classify_flight_type`)

The classifier consumes a telemetry frame with `gimbal_pitch` and `yaw`
columns; a row of that frame is embedded as a `FlightRow` (both values are
reals here, since the classifier is applied to interpolated data and feeds the
values into transcendental functions).  In the pipeline the two columns always
exist (the block parser emits every key), so the `'gimbal_pitch' in
telemetry_df` / `'yaw' in telemetry_df` membership tests of the source are
always true and only the all-NaN sub-cases matter; an all-NaN mean is NaN and
every NaN comparison is false, which is embedded as an `Option ℝ` mean that is
`none` exactly when no value is present, with comparisons that fail on
`none`. -/

open scoped Classical

/-- One row of the classifier's input: optional gimbal pitch and flight yaw. -/
structure FlightRow where
  gimbal_pitch : Option ℝ
  yaw : Option ℝ

/-- Mean of the cosines of the present yaw values (degrees in, `np.mean` of
`np.cos(np.deg2rad ...)`). -/
noncomputable def yawMeanCos (yaws : List ℝ) : ℝ :=
  ((yaws.map (fun y => Real.cos (deg2rad y))).sum) / yaws.length

/-- Mean of the sines of the present yaw values. -/
noncomputable def yawMeanSin (yaws : List ℝ) : ℝ :=
  ((yaws.map (fun y => Real.sin (deg2rad y))).sum) / yaws.length

/-- The mean resultant length `R = sqrt(C^2 + S^2)` of the present yaw
values. -/
noncomputable def meanResultantLength (yaws : List ℝ) : ℝ :=
  Real.sqrt (yawMeanCos yaws ^ 2 + yawMeanSin yaws ^ 2)

/-- The yaw-dispersion statistic of `classify_flight_type`, as a function of
the list of PRESENT yaw values: `0` when there is no yaw data at all (the
`else` branch of the source, reached when the column is absent or all-NaN),
otherwise `degrees(sqrt(-2 ln R))` when `R > 0` and the 180° sentinel when
`R = 0`. -/
noncomputable def yaw_variation (yaws : List ℝ) : ℝ :=
  if yaws = [] then 0
  else if 0 < meanResultantLength yaws then
    rad2deg (Real.sqrt (-2 * Real.log (meanResultantLength yaws)))
  else 180

/-- Embedding of `TelemetrySynchronizer.classify_flight_type` (diagnostic
`print` calls dropped; they do not affect the returned label). -/
noncomputable def classify_flight_type (rows : List FlightRow) : String :=
  if rows = [] then "Unknown"
  else
    let pitches := rows.filterMap FlightRow.gimbal_pitch
    let avg_pitch : Option ℝ :=
      if pitches = [] then none else some (pitches.sum / pitches.length)
    let yawvar := yaw_variation (rows.filterMap FlightRow.yaw)
    let is_nadir := (∃ x, avg_pitch = some x ∧ x < -80) ∧ yawvar < 30
    let is_orbit := (∃ x, avg_pitch = some x ∧ -60 < x ∧ x < -30) ∧ 30 < yawvar
    if is_nadir then "Nadir Mapping"
    else if is_orbit then "Orbit/Structure"
    else "Mixed/Other"

/-! ## SRT parser (`srt_parser.py`, `SRTParser`)

Strings are processed as `List Char`.  Python's `str.strip`, `str.split`,
`str.join` and the specific regular expressions of `_parse_timestamp` and
`_extract_value` are implemented directly as character scanners: each pattern
of the source is an alternation of literal keys, one-or-more `[:\s]`
separators, and a greedy numeric group, matched case-insensitively at the
leftmost possible position, which for these patterns coincides with Python's
backtracking semantics (no character class overlaps the one that follows
it). -/

/-- Python `str.isspace` characters relevant to `strip` (ASCII whitespace). -/
def pyIsSpace (c : Char) : Bool :=
  c == ' ' || c == '\t' || c == '\n' || c == '\r' || c == '\x0b' || c == '\x0c'

/-- Python `str.strip()`. -/
def pyStrip (s : List Char) : List Char :=
  ((s.dropWhile pyIsSpace).reverse.dropWhile pyIsSpace).reverse

/-- Worker for `pySplit`; the fuel argument (initialised to the string length)
makes the recursion structural. -/
def splitOnAux (sep : List Char) : ℕ → List Char → List Char → List (List Char)
  | _, [], acc => [acc.reverse]
  | 0, s, acc => [acc.reverse ++ s]
  | fuel + 1, c :: rest, acc =>
    if sep.isPrefixOf (c :: rest) then
      acc.reverse :: splitOnAux sep fuel (rest.drop (sep.length - 1)) []
    else
      splitOnAux sep fuel rest (c :: acc)

/-- Python `s.split(sep)` for a non-empty separator: split at each
non-overlapping, leftmost occurrence. -/
def pySplit (sep s : List Char) : List (List Char) := splitOnAux sep s.length s []

/-- Python `sep.join(parts)`. -/
def joinWith (sep : List Char) : List (List Char) → List Char
  | [] => []
  | [x] => x
  | x :: y :: rest => x ++ sep ++ joinWith sep (y :: rest)

/-- Numeric value of one decimal digit. -/
def dval (c : Char) : ℕ := c.toNat - '0'.toNat

/-- Numeric value of a digit string (most significant first). -/
def natVal (ds : List Char) : ℕ := ds.foldl (fun a c => 10 * a + dval c) 0

/-- Match the regex `(\d{2}):(\d{2}):(\d{2})[,.](\d{3})` at the head of the
string, returning `(hours, minutes, seconds, milliseconds)`. -/
def matchTimeAt : List Char → Option (ℕ × ℕ × ℕ × ℕ)
  | h1 :: h2 :: c1 :: m1 :: m2 :: c2 :: s1 :: s2 :: sep :: t1 :: t2 :: t3 :: _ =>
    if h1.isDigit && h2.isDigit && c1 == ':' && m1.isDigit && m2.isDigit && c2 == ':'
        && s1.isDigit && s2.isDigit && (sep == ',' || sep == '.')
        && t1.isDigit && t2.isDigit && t3.isDigit then
      some (10 * dval h1 + dval h2, 10 * dval m1 + dval m2, 10 * dval s1 + dval s2,
        100 * dval t1 + 10 * dval t2 + dval t3)
    else none
  | _ => none

/-- `re.search` for the time pattern: try every position left to right. -/
def searchTime : List Char → Option (ℕ × ℕ × ℕ × ℕ)
  | [] => none
  | c :: rest =>
    match matchTimeAt (c :: rest) with
    | some r => some r
    | none => searchTime rest

/-- Embedding of `SRTParser._parse_timestamp`: take the part before `-->`,
strip it, search for `HH:MM:SS[,.]mmm` and convert to seconds. -/
def parse_timestamp_line (line : List Char) : Option ℚ :=
  match searchTime (pyStrip ((pySplit ['-', '-', '>'] line).headD [])) with
  | some (h, m, s, ms) =>
    some ((h : ℚ) * 3600 + (m : ℚ) * 60 + (s : ℚ) + (ms : ℚ) / 1000)
  | none => none

/-- A character of the regex class `[:\s]`. -/
def isSepChar (c : Char) : Bool := c == ':' || pyIsSpace c

/-- Case-insensitive character comparison (`re.IGNORECASE`). -/
def lowerEq (a b : Char) : Bool := a.toLower == b.toLower

/-- Case-insensitive list-prefix test. -/
def ciIsPrefix : List Char → List Char → Bool
  | [], _ => true
  | _ :: _, [] => false
  | k :: ks, c :: cs => lowerEq k c && ciIsPrefix ks cs

/-- Python `float()` on the strings these regex groups can produce:
`[-]digits[.digits]` with at least one digit, rejecting anything else
(e.g. `"."`, `""`, a second dot). -/
def pyFloat (s : List Char) : Option ℚ :=
  let signAndRest : Bool × List Char :=
    match s with
    | '-' :: r => (true, r)
    | _ => (false, s)
  let neg := signAndRest.1
  let s1 := signAndRest.2
  let applySign : ℚ → ℚ := fun q => if neg then -q else q
  let intPart := s1.takeWhile Char.isDigit
  let rest1 := s1.drop intPart.length
  match rest1 with
  | [] => if intPart = [] then none else some (applySign (natVal intPart))
  | '.' :: r2 =>
    let fracPart := r2.takeWhile Char.isDigit
    let rest2 := r2.drop fracPart.length
    if rest2 = [] && !(intPart = [] && fracPart = []) then
      some (applySign ((natVal intPart : ℚ) + (natVal fracPart : ℚ) / (10 ^ fracPart.length)))
    else none
  | _ => none

/-- The fraction handling of `SRTParser._extract_value`: a group containing
`/` is split and evaluated as `float(num) / float(denom)`.  A malformed
fraction (wrong number of `/`-separated parts, or a part that `float`
rejects) raises `ValueError`, which the source catches and turns into
`None`; a zero denominator instead raises `ZeroDivisionError`, which the
`except ValueError` clause does NOT catch, so it propagates out of the
parse — modelled as `Except.error ()`. -/
def fractionOrFloat (s : List Char) : Except Unit (Option ℚ) :=
  if s.contains '/' then
    match pySplit ['/'] s with
    | [a, b] =>
      match pyFloat a, pyFloat b with
      | some qa, some qb =>
        if qb = 0 then Except.error () else Except.ok (some (qa / qb))
      | _, _ => Except.ok none
    | _ => Except.ok none
  else Except.ok (pyFloat s)

/-- The three numeric group shapes used by the source's field patterns. -/
inductive ValueKind
  | signedDecimal
  | natDigits
  | shutterChars

/-- Greedy capture of one numeric group at the head of the string: `none`
when the group cannot match there (the regex fails at this position and the
search moves on); otherwise `some` of the conversion outcome of
`SRTParser._extract_value` on the matched group — a value, a caught
`ValueError` (`Except.ok none`), or an uncaught `ZeroDivisionError`
(`Except.error ()`, possible only for the shutter shape).  The group shapes
are `(-?\d+\.?\d*)` / `(\d+)` / `([0-9/.]+)`. -/
def captureValue : ValueKind → List Char → Option (Except Unit (Option ℚ))
  | .signedDecimal, s =>
    let signAndRest : List Char × List Char :=
      match s with
      | '-' :: r => (['-'], r)
      | _ => ([], s)
    let d1 := signAndRest.2.takeWhile Char.isDigit
    if d1 = [] then none
    else
      let r1 := signAndRest.2.drop d1.length
      let group :=
        match r1 with
        | '.' :: r2 => signAndRest.1 ++ d1 ++ '.' :: r2.takeWhile Char.isDigit
        | _ => signAndRest.1 ++ d1
      some (Except.ok (pyFloat group))
  | .natDigits, s =>
    let d := s.takeWhile Char.isDigit
    if d = [] then none else some (Except.ok (some (natVal d)))
  | .shutterChars, s =>
    let g := s.takeWhile (fun c => c.isDigit || c == '/' || c == '.')
    if g = [] then none else some (fractionOrFloat g)

/-- Attempt one key alternative at the current position: the key must be a
case-insensitive prefix, followed by one-or-more `[:\s]` characters and the
numeric group. -/
def tryKeyAt (vk : ValueKind) (k s : List Char) : Option (Except Unit (Option ℚ)) :=
  if ciIsPrefix k s then
    match s.drop k.length with
    | c :: rest => if isSepChar c then captureValue vk (rest.dropWhile isSepChar) else none
    | [] => none
  else none

/-- Try each key alternative (in pattern order) at the current position. -/
def tryKeysAt (keys : List (List Char)) (vk : ValueKind) (s : List Char) :
    Option (Except Unit (Option ℚ)) :=
  keys.findSome? (fun k => tryKeyAt vk k s)

/-- Negative-lookbehind test: `revPre` is the reversed text before the current
position; the position is blocked when some blocked string (lower case) reads
backwards as a prefix of it. -/
def blockedAt (lbs : List (List Char)) (revPre : List Char) : Bool :=
  lbs.any (fun b => ciIsPrefix b.reverse revPre)

/-- Left-to-right scan of `re.search` for one field pattern: the scan stops
at the leftmost position where the pattern matches, and the conversion
outcome there (value, caught `ValueError`, or uncaught `ZeroDivisionError`)
is the result; when no position matches the result is `Except.ok none`. -/
def searchKVAux (keys : List (List Char)) (lbs : List (List Char)) (vk : ValueKind) :
    List Char → List Char → Except Unit (Option ℚ)
  | _, [] => Except.ok none
  | revPre, c :: rest =>
    match (if blockedAt lbs revPre then none else tryKeysAt keys vk (c :: rest)) with
    | some r => r
    | none => searchKVAux keys lbs vk (c :: revPre) rest

/-- Embedding of `SRTParser._extract_value` for one field pattern: key
alternatives, negative lookbehinds, and the numeric group shape. -/
def extract_value (keys : List (List Char)) (lbs : List (List Char)) (vk : ValueKind)
    (text : List Char) : Except Unit (Option ℚ) :=
  searchKVAux keys lbs vk [] text

/-- The telemetry-dict construction of `SRTParser._parse_block`: the nine
`_extract_value` calls in the source's evaluation order; a raised
`ZeroDivisionError` (possible only for the shutter pattern, the only group
shape that can contain `/`) propagates. -/
def extractFields (ts : ℚ) (text : List Char) : Except Unit Sample := do
  let latitude ← extract_value ["latitude".data, "lat".data] [] .signedDecimal text
  let longitude ← extract_value ["longitude".data, "lon".data] [] .signedDecimal text
  let altitude ← extract_value ["altitude".data, "alt".data] [] .signedDecimal text
  let rel_altitude ← extract_value ["rel_alt".data] [] .signedDecimal text
  let gimbal_pitch ← extract_value ["gimbal_pitch".data, "gimbalpitch".data] [] .signedDecimal text
  let gimbal_yaw ← extract_value ["gimbal_yaw".data, "gimbalyaw".data] [] .signedDecimal text
  let yaw ← extract_value ["yaw".data] ["gimbal_".data, "gimbal".data] .signedDecimal text
  let iso ← extract_value ["iso".data] [] .natDigits text
  let shutter ← extract_value ["shutter".data] [] .shutterChars text
  pure
    { timestamp := ts, latitude := latitude, longitude := longitude,
      altitude := altitude, rel_altitude := rel_altitude,
      gimbal_pitch := gimbal_pitch, gimbal_yaw := gimbal_yaw,
      yaw := yaw, iso := iso, shutter := shutter }

/-- Embedding of `SRTParser._parse_block`: fewer than three lines, or an
unparseable time-range line, yield no sample (`Except.ok none`); otherwise
every field is extracted from the space-joined remaining lines (any or all
may be missing), and an uncaught `ZeroDivisionError` from the shutter
extraction propagates. -/
def parse_block (block : List Char) : Except Unit (Option Sample) :=
  let lines := pySplit ['\n'] (pyStrip block)
  if lines.length < 3 then Except.ok none
  else
    match parse_timestamp_line (lines.getD 1 []) with
    | none => Except.ok none
    | some ts => (extractFields ts (joinWith [' '] (lines.drop 2))).map some

/-- The block loop of `SRTParser.parse`: blocks are processed in file order;
each contributes a sample, is skipped, or raises, which aborts the loop. -/
def collectSamples : List (List Char) → Except Unit (List Sample)
  | [] => Except.ok []
  | b :: bs =>
    match parse_block b with
    | Except.error e => Except.error e
    | Except.ok none => collectSamples bs
    | Except.ok (some smp) =>
      match collectSamples bs with
      | Except.error e => Except.error e
      | Except.ok rest => Except.ok (smp :: rest)

/-- The sample one block contributes when the parse does not raise. -/
def blockSample (b : List Char) : Option Sample :=
  match parse_block b with
  | Except.ok o => o
  | Except.error _ => none

/-- Embedding of `SRTParser.parse`: strip the content, split into blocks on
blank lines, parse each block in order (skipping silent failures), and raise
the "no data" error exactly when the loop completed with no sample; an
uncaught `ZeroDivisionError` from a block aborts the parse before the
no-data check.  The final `pd.to_numeric(errors='coerce')` pass of the
source is the identity here, since every stored value is already numeric. -/
def parseSRT (content : String) : Except String (List Sample) :=
  match collectSamples (pySplit ['\n', '\n'] (pyStrip content.data)) with
  | Except.error _ => Except.error "float division by zero"
  | Except.ok samples =>
    if samples.isEmpty then Except.error "No telemetry data found"
    else Except.ok samples

/-! ## Claim C7: frame timetable validation and contents -/

/-- C7: the frame timetable builder fails exactly when `frame_rate ≤ 0`; for a
positive rate it returns exactly `[i / frame_rate for i in 0..frame_count)`,
which is strictly increasing (and, being a plain function, it has no side
effects). -/
theorem c7_frame_timetable (n : ℕ) (r : ℚ) :
    ((∃ e, calculate_frame_timestamps n r = Except.error e) ↔ r ≤ 0) ∧
    (0 < r →
      calculate_frame_timestamps n r =
        Except.ok ((List.range n).map (fun i : ℕ => (i : ℚ) / r)) ∧
      List.Pairwise (· < ·) ((List.range n).map (fun i : ℕ => (i : ℚ) / r))) := by
  constructor
  · constructor
    · rintro ⟨e, he⟩
      by_contra h
      push_neg at h
      simp [calculate_frame_timestamps, not_le.mpr h] at he
    · intro h
      refine ⟨"Frame rate must be positive", ?_⟩
      simp [calculate_frame_timestamps, h]
  · intro hr
    have hfe : (fun i : ℕ => (i : ℚ) * (1 / r)) = fun i : ℕ => (i : ℚ) / r := by
      funext i
      rw [mul_one_div]
    constructor
    · unfold calculate_frame_timestamps
      rw [if_neg (not_le.mpr hr), hfe]
    · rw [List.pairwise_map]
      refine (List.pairwise_lt_range n).imp ?_
      intro a b hab
      have h1 : (a : ℚ) < b := by exact_mod_cast hab
      gcongr

/-- Witness for C7 at `frame_count = 5`, `frame_rate = 2` (and the failing
rate `0`). -/
theorem c7_witness :
    calculate_frame_timestamps 5 2 = Except.ok [0, 1/2, 1, 3/2, 2] ∧
    (∃ e, calculate_frame_timestamps 5 0 = Except.error e) := by
  refine ⟨?_, (c7_frame_timetable 5 0).1.mpr le_rfl⟩
  rw [((c7_frame_timetable 5 2).2 (by norm_num)).1]
  norm_num [show List.range 5 = [0, 1, 2, 3, 4] from rfl]

/-! ## Claim C4: the yaw-dispersion statistic -/

/-- C4 counterexample: when no yaw value is present in the whole series, the
source sets the dispersion statistic to `0`, not to the 180° sentinel the
claim requires for that case. -/
theorem c4_counterexample : yaw_variation ([] : List ℝ) = 0 ∧ (0 : ℝ) ≠ 180 := by
  constructor
  · simp [yaw_variation]
  · norm_num

/-- C4 (amended): when at least one yaw value is present, the dispersion
statistic is `degrees(sqrt(-2 ln R))` for `R > 0` and the 180° sentinel for
`R = 0`; when NO yaw value is present it is `0` (not 180). -/
theorem c4_yaw_dispersion (yaws : List ℝ) :
    (yaws ≠ [] → 0 < meanResultantLength yaws →
      yaw_variation yaws = rad2deg (Real.sqrt (-2 * Real.log (meanResultantLength yaws)))) ∧
    (yaws ≠ [] → meanResultantLength yaws = 0 → yaw_variation yaws = 180) ∧
    yaw_variation ([] : List ℝ) = 0 := by
  refine ⟨?_, ?_, by simp [yaw_variation]⟩
  · intro h hR
    simp [yaw_variation, h, hR]
  · intro h hR
    simp [yaw_variation, h, hR]

/-- Witness for C4 at the one-element series `[0°]`, whose mean resultant
length is `1 > 0`. -/
theorem c4_witness :
    0 < meanResultantLength [(0 : ℝ)] ∧
    yaw_variation [(0 : ℝ)] =
      rad2deg (Real.sqrt (-2 * Real.log (meanResultantLength [(0 : ℝ)]))) := by
  have hR : meanResultantLength [(0 : ℝ)] = 1 := by
    simp [meanResultantLength, yawMeanCos, yawMeanSin, deg2rad]
  refine ⟨by rw [hR]; norm_num, ?_⟩
  exact (c4_yaw_dispersion [(0 : ℝ)]).1 (by simp) (by rw [hR]; norm_num)

/-! ## Claim C10: classifier with no gimbal pitch anywhere -/

/-- C10: on a non-empty series with no present `gimbal_pitch` value anywhere,
both average-pitch conditions fail, so the classifier returns `Mixed/Other`
and never `Nadir Mapping` or `Orbit/Structure`. -/
theorem c10_no_pitch_mixed (rows : List FlightRow) (hne : rows ≠ [])
    (hp : ∀ r ∈ rows, r.gimbal_pitch = none) :
    classify_flight_type rows = "Mixed/Other" ∧
    classify_flight_type rows ≠ "Nadir Mapping" ∧
    classify_flight_type rows ≠ "Orbit/Structure" := by
  have hpitches : rows.filterMap FlightRow.gimbal_pitch = [] :=
    List.filterMap_eq_nil_iff.mpr hp
  have hmain : classify_flight_type rows = "Mixed/Other" := by
    simp [classify_flight_type, hne, hpitches]
  exact ⟨hmain, by rw [hmain]; decide, by rw [hmain]; decide⟩

/-- Witness for C10 at the one-row series with both fields missing. -/
theorem c10_witness : classify_flight_type [⟨none, none⟩] = "Mixed/Other" :=
  (c10_no_pitch_mixed [⟨none, none⟩] (by simp) (by simp)).1

/-! ## Claims C8 and C9: the SRT parser -/

/-- A timestamp produced by `parse_timestamp_line` is non-negative (it is a
sum of non-negative contributions `H*3600 + M*60 + S + ms/1000`). -/
lemma parse_timestamp_line_nonneg {line : List Char} {t : ℚ}
    (h : parse_timestamp_line line = some t) : 0 ≤ t := by
  unfold parse_timestamp_line at h
  rcases hs : searchTime (pyStrip ((pySplit ['-', '-', '>'] line).headD [])) with _ | ⟨h1, m1, s1, ms1⟩
  · rw [hs] at h
    exact absurd h (by simp)
  · rw [hs] at h
    simp only [Option.some.injEq] at h
    rw [← h]
    positivity

/-- Reduction of a successful `Except` bind. -/
lemma ok_bind {ε α β : Type} (a : α) (f : α → Except ε β) :
    bind (Except.ok a) f = f a := rfl

/-- Reduction of a failed `Except` bind. -/
lemma error_bind {ε α β : Type} (e : ε) (f : α → Except ε β) :
    bind (Except.error e) f = (Except.error e : Except ε β) := rfl

/-- `pure` in `Except` is `Except.ok`. -/
lemma pure_eq_ok {ε α : Type} (a : α) : (pure a : Except ε α) = Except.ok a := rfl

/-- The signed-decimal and bare-digit groups never raise: their matched
shapes are always accepted by `float`. -/
lemma captureValue_sdnat_no_err {vk : ValueKind} {s : List Char}
    {r : Except Unit (Option ℚ)}
    (hvk : vk = ValueKind.signedDecimal ∨ vk = ValueKind.natDigits)
    (h : captureValue vk s = some r) : ∃ v, r = Except.ok v := by
  rcases hvk with rfl | rfl
  · simp only [captureValue] at h
    split at h
    · exact absurd h (by simp)
    · exact ⟨_, (Option.some_inj.mp h).symm⟩
  · simp only [captureValue] at h
    split at h
    · exact absurd h (by simp)
    · exact ⟨_, (Option.some_inj.mp h).symm⟩

/-- One key attempt with a non-raising group shape cannot raise. -/
lemma tryKeyAt_sdnat_no_err {vk : ValueKind} {k s : List Char}
    {r : Except Unit (Option ℚ)}
    (hvk : vk = ValueKind.signedDecimal ∨ vk = ValueKind.natDigits)
    (h : tryKeyAt vk k s = some r) : ∃ v, r = Except.ok v := by
  unfold tryKeyAt at h
  split at h
  · split at h
    · split at h
      · exact captureValue_sdnat_no_err hvk h
      · exact absurd h (by simp)
    · exact absurd h (by simp)
  · exact absurd h (by simp)

/-- The key alternation with a non-raising group shape cannot raise. -/
lemma tryKeysAt_sdnat_no_err {keys : List (List Char)} {vk : ValueKind}
    {s : List Char} {r : Except Unit (Option ℚ)}
    (hvk : vk = ValueKind.signedDecimal ∨ vk = ValueKind.natDigits)
    (h : tryKeysAt keys vk s = some r) : ∃ v, r = Except.ok v := by
  induction keys with
  | nil => exact absurd h (by simp [tryKeysAt])
  | cons k ks ih =>
    rw [tryKeysAt, List.findSome?_cons] at h
    rcases hk : tryKeyAt vk k s with _ | r0
    · rw [hk] at h
      exact ih h
    · rw [hk] at h
      obtain ⟨v, hv⟩ := tryKeyAt_sdnat_no_err hvk hk
      exact ⟨v, (Option.some_inj.mp h).symm.trans hv⟩

/-- The field scan with a non-raising group shape never raises. -/
lemma searchKVAux_sdnat_ok (keys lbs : List (List Char)) {vk : ValueKind}
    (hvk : vk = ValueKind.signedDecimal ∨ vk = ValueKind.natDigits)
    (s : List Char) :
    ∀ revPre : List Char, ∃ v, searchKVAux keys lbs vk revPre s = Except.ok v := by
  induction s with
  | nil => exact fun _ => ⟨none, rfl⟩
  | cons c rest ih =>
    intro revPre
    rw [searchKVAux]
    by_cases hb : blockedAt lbs revPre
    · rw [if_pos hb]
      exact ih (c :: revPre)
    · rw [if_neg hb]
      rcases htk : tryKeysAt keys vk (c :: rest) with _ | r
      · exact ih (c :: revPre)
      · obtain ⟨v, rfl⟩ := tryKeysAt_sdnat_no_err hvk htk
        exact ⟨v, rfl⟩

/-- `_extract_value` never raises for the eight non-shutter patterns. -/
lemma extract_value_sdnat_ok (keys lbs : List (List Char)) {vk : ValueKind}
    (hvk : vk = ValueKind.signedDecimal ∨ vk = ValueKind.natDigits)
    (text : List Char) : ∃ v, extract_value keys lbs vk text = Except.ok v :=
  searchKVAux_sdnat_ok keys lbs hvk text []

/-- The field-extraction stage yields a record carrying the given timestamp,
or raises through the shutter pattern. -/
lemma extractFields_cases (ts : ℚ) (text : List Char) :
    (∃ smp : Sample, extractFields ts text = Except.ok smp ∧ smp.timestamp = ts) ∨
    extractFields ts text = Except.error () := by
  obtain ⟨v1, h1⟩ := extract_value_sdnat_ok ["latitude".data, "lat".data] [] (Or.inl rfl) text
  obtain ⟨v2, h2⟩ := extract_value_sdnat_ok ["longitude".data, "lon".data] [] (Or.inl rfl) text
  obtain ⟨v3, h3⟩ := extract_value_sdnat_ok ["altitude".data, "alt".data] [] (Or.inl rfl) text
  obtain ⟨v4, h4⟩ := extract_value_sdnat_ok ["rel_alt".data] [] (Or.inl rfl) text
  obtain ⟨v5, h5⟩ := extract_value_sdnat_ok ["gimbal_pitch".data, "gimbalpitch".data] []
    (Or.inl rfl) text
  obtain ⟨v6, h6⟩ := extract_value_sdnat_ok ["gimbal_yaw".data, "gimbalyaw".data] []
    (Or.inl rfl) text
  obtain ⟨v7, h7⟩ := extract_value_sdnat_ok ["yaw".data] ["gimbal_".data, "gimbal".data]
    (Or.inl rfl) text
  obtain ⟨v8, h8⟩ := extract_value_sdnat_ok ["iso".data] [] (Or.inr rfl) text
  rcases hsh : extract_value ["shutter".data] [] ValueKind.shutterChars text with e | shv
  · right
    cases e
    simp only [extractFields, h1, h2, h3, h4, h5, h6, h7, h8, hsh, ok_bind, error_bind]
  · left
    refine ⟨{ timestamp := ts, latitude := v1, longitude := v2, altitude := v3,
              rel_altitude := v4, gimbal_pitch := v5, gimbal_yaw := v6, yaw := v7,
              iso := v8, shutter := shv }, ?_, rfl⟩
    simp only [extractFields, h1, h2, h3, h4, h5, h6, h7, h8, hsh, ok_bind, pure_eq_ok]

/-- A timestamp-bearing block either contributes a sample with that
timestamp or raises. -/
lemma parse_block_cases {block : List Char} {ts : ℚ}
    (hlen : ¬ (pySplit ['\n'] (pyStrip block)).length < 3)
    (hts : parse_timestamp_line ((pySplit ['\n'] (pyStrip block)).getD 1 []) = some ts) :
    (∃ smp, parse_block block = Except.ok (some smp) ∧ smp.timestamp = ts) ∨
    parse_block block = Except.error () := by
  rcases extractFields_cases ts (joinWith [' '] ((pySplit ['\n'] (pyStrip block)).drop 2)) with
    ⟨smp, hok, hts2⟩ | herr
  · left
    refine ⟨smp, ?_, hts2⟩
    simp only [parse_block]
    rw [if_neg hlen, hts]
    show (extractFields ts (joinWith [' '] ((pySplit ['\n'] (pyStrip block)).drop 2))).map some
      = Except.ok (some smp)
    rw [hok]
    rfl
  · right
    simp only [parse_block]
    rw [if_neg hlen, hts]
    show (extractFields ts (joinWith [' '] ((pySplit ['\n'] (pyStrip block)).drop 2))).map some
      = Except.error ()
    rw [herr]
    rfl

/-- A sample contributed by a block has a non-negative timestamp. -/
lemma parse_block_timestamp_nonneg {b : List Char} {smp : Sample}
    (h : parse_block b = Except.ok (some smp)) : 0 ≤ smp.timestamp := by
  simp only [parse_block] at h
  by_cases hlen : (pySplit ['\n'] (pyStrip b)).length < 3
  · rw [if_pos hlen] at h
    exact absurd h (by simp)
  · rw [if_neg hlen] at h
    rcases ht : parse_timestamp_line ((pySplit ['\n'] (pyStrip b)).getD 1 []) with _ | ts
    · rw [ht] at h
      exact absurd h (by simp)
    · rw [ht] at h
      have h' : (extractFields ts (joinWith [' '] ((pySplit ['\n'] (pyStrip b)).drop 2))).map some
          = Except.ok (some smp) := h
      rcases extractFields_cases ts (joinWith [' '] ((pySplit ['\n'] (pyStrip b)).drop 2)) with
        ⟨smp2, hok, hts2⟩ | herr
      · rw [hok] at h'
        have hs : smp2 = smp := by
          simpa [Except.map] using h'
        rw [← hs, hts2]
        exact parse_timestamp_line_nonneg ht
      · rw [herr] at h'
        exact absurd h' (by simp [Except.map])

/-- `collectSamples` raises exactly when some block raises. -/
lemma collectSamples_error_iff (bs : List (List Char)) :
    collectSamples bs = Except.error () ↔ ∃ b ∈ bs, parse_block b = Except.error () := by
  induction bs with
  | nil =>
    constructor
    · intro h
      exact absurd h (by simp [collectSamples])
    · rintro ⟨b, hb, _⟩
      exact absurd hb (by simp)
  | cons b bs ih =>
    constructor
    · intro h
      rw [collectSamples] at h
      rcases hpb : parse_block b with e | v
      · exact ⟨b, List.mem_cons_self b bs, by rw [hpb]⟩
      · rw [hpb] at h
        rcases v with _ | smp
        · obtain ⟨b2, hb2, he2⟩ := ih.mp h
          exact ⟨b2, List.mem_cons_of_mem b hb2, he2⟩
        · rcases hcs : collectSamples bs with e2 | rest
          · obtain ⟨b2, hb2, he2⟩ := ih.mp (by rw [hcs])
            exact ⟨b2, List.mem_cons_of_mem b hb2, he2⟩
          · rw [hcs] at h
            exact absurd h (by simp)
    · rintro ⟨b2, hb2, he2⟩
      rw [collectSamples]
      rcases List.mem_cons.mp hb2 with heq | hmem
      · rw [heq] at he2
        rw [he2]
      · rcases hpb : parse_block b with e | v
        · rfl
        · rcases v with _ | smp
          · exact ih.mpr ⟨b2, hmem, he2⟩
          · rw [ih.mpr ⟨b2, hmem, he2⟩]

/-- When the loop completes, the samples are the blocks' contributions in
file order. -/
lemma collectSamples_ok {bs : List (List Char)} {l : List Sample}
    (h : collectSamples bs = Except.ok l) : bs.filterMap blockSample = l := by
  induction bs generalizing l with
  | nil =>
    rw [collectSamples] at h
    rw [List.filterMap_nil]
    exact Except.ok.inj h
  | cons b bs ih =>
    rw [collectSamples] at h
    rw [List.filterMap_cons]
    rcases hpb : parse_block b with e | v
    · rw [hpb] at h
      exact absurd h (by simp)
    · rw [hpb] at h
      rcases v with _ | smp
      · have hbs : blockSample b = none := by simp [blockSample, hpb]
        rw [hbs]
        exact ih h
      · have hbs : blockSample b = some smp := by simp [blockSample, hpb]
        rw [hbs]
        rcases hcs : collectSamples bs with e2 | rest
        · rw [hcs] at h
          exact absurd h (by simp)
        · rw [hcs] at h
          have h' : Except.ok (smp :: rest) = (Except.ok l : Except Unit (List Sample)) := h
          injection h' with h'
          rw [← h', ih hcs]

/-- A sample contributed through `blockSample` has a non-negative
timestamp. -/
lemma blockSample_timestamp_nonneg {b : List Char} {smp : Sample}
    (h : blockSample b = some smp) : 0 ≤ smp.timestamp := by
  unfold blockSample at h
  rcases hpb : parse_block b with e | v
  · rw [hpb] at h
    exact absurd h (by simp)
  · rw [hpb] at h
    rcases v with _ | s
    · exact absurd h (by simp)
    · have h' : some s = some smp := h
      injection h' with h'
      rw [← h']
      exact parse_block_timestamp_nonneg hpb

/-- Evaluation of `parseSRT` when the block loop raises. -/
lemma parseSRT_eq_error_of {content : String}
    (h : collectSamples (pySplit ['\n', '\n'] (pyStrip content.data)) = Except.error ()) :
    parseSRT content = Except.error "float division by zero" := by
  unfold parseSRT
  rw [h]

/-- Evaluation of `parseSRT` when the block loop completes. -/
lemma parseSRT_eq_of_ok {content : String} {samples : List Sample}
    (h : collectSamples (pySplit ['\n', '\n'] (pyStrip content.data)) = Except.ok samples) :
    parseSRT content =
      if samples.isEmpty then Except.error "No telemetry data found"
      else Except.ok samples := by
  unfold parseSRT
  rw [h]

/-- `parseSRT` succeeds exactly when the block loop completes with a
non-empty sample list. -/
lemma parseSRT_ok_iff {content : String} {l : List Sample} :
    parseSRT content = Except.ok l ↔
      collectSamples (pySplit ['\n', '\n'] (pyStrip content.data)) = Except.ok l ∧
      l ≠ [] := by
  rcases hcs : collectSamples (pySplit ['\n', '\n'] (pyStrip content.data)) with e | samples
  · rw [parseSRT_eq_error_of hcs]
    constructor
    · intro h
      exact absurd h (by simp)
    · rintro ⟨h1, _⟩
      exact absurd h1 (by simp)
  · rw [parseSRT_eq_of_ok hcs]
    rcases samples with _ | ⟨a, t⟩
    · simp [eq_comm]
    · rw [if_neg (by simp)]
      constructor
      · intro h
        injection h with h
        exact ⟨by rw [h], by rw [← h]; simp⟩
      · rintro ⟨h1, _⟩
        injection h1 with h1
        rw [h1]

/-- C8 (amended): the parser raises the "no data" error exactly when the
block loop completes with zero samples, and raises the uncaught
`ZeroDivisionError` exactly when some block's shutter fraction has a zero
denominator; a block whose time-range line does not parse is silently
skipped; a block with at least three lines and a parseable time-range line
either yields a valid sample carrying that timestamp (regardless of how many
fields are extractable) or raises through the shutter extraction. -/
theorem c8_parse_errors :
    (∀ content : String,
      (parseSRT content = Except.error "No telemetry data found" ↔
        collectSamples (pySplit ['\n', '\n'] (pyStrip content.data)) = Except.ok [])) ∧
    (∀ content : String,
      (parseSRT content = Except.error "float division by zero" ↔
        ∃ b ∈ pySplit ['\n', '\n'] (pyStrip content.data),
          parse_block b = Except.error ())) ∧
    (∀ block : List Char,
      parse_timestamp_line ((pySplit ['\n'] (pyStrip block)).getD 1 []) = none →
      parse_block block = Except.ok none) ∧
    (∀ (block : List Char) (ts : ℚ),
      3 ≤ (pySplit ['\n'] (pyStrip block)).length →
      parse_timestamp_line ((pySplit ['\n'] (pyStrip block)).getD 1 []) = some ts →
      (∃ smp, parse_block block = Except.ok (some smp) ∧ smp.timestamp = ts) ∨
      parse_block block = Except.error ()) := by
  refine ⟨?_, ?_, ?_, ?_⟩
  · intro content
    rcases hcs : collectSamples (pySplit ['\n', '\n'] (pyStrip content.data)) with e | samples
    · rw [parseSRT_eq_error_of hcs]
      simp
    · rw [parseSRT_eq_of_ok hcs]
      rcases samples with _ | ⟨a, t⟩ <;> simp
  · intro content
    rw [← collectSamples_error_iff]
    rcases hcs : collectSamples (pySplit ['\n', '\n'] (pyStrip content.data)) with e | samples
    · rw [parseSRT_eq_error_of hcs]
      simp
    · rw [parseSRT_eq_of_ok hcs]
      rcases samples with _ | ⟨a, t⟩ <;> simp
  · intro block h
    simp only [parse_block]
    by_cases hlen : (pySplit ['\n'] (pyStrip block)).length < 3
    · rw [if_pos hlen]
    · rw [if_neg hlen, h]
  · intro block ts hlen hts
    exact parse_block_cases (Nat.not_lt.mpr hlen) hts

/-- A block whose telemetry line carries a zero-denominator shutter
fraction. -/
def c8DivBlock : String := "1\n00:00:01,000 --> 00:00:02,000\nshutter: 1/0"

/-- C8 counterexample: on a three-line block with a parseable time-range line
but a `shutter: 1/0` field, `float(num) / float(denom)` raises
`ZeroDivisionError`, which the `except ValueError` clause does not catch:
the block yields no sample and the whole parse aborts with an error that is
not the "no data" error, contradicting the claim that such a block always
yields a valid sample and that the only parse error is the no-data one. -/
theorem c8_counterexample :
    parse_block c8DivBlock.data = Except.error () ∧
    parseSRT c8DivBlock = Except.error "float division by zero" ∧
    3 ≤ (pySplit ['\n'] (pyStrip c8DivBlock.data)).length ∧
    parse_timestamp_line ((pySplit ['\n'] (pyStrip c8DivBlock.data)).getD 1 []) =
      some (((0 : ℕ) : ℚ) * 3600 + ((0 : ℕ) : ℚ) * 60 + ((1 : ℕ) : ℚ) + ((0 : ℕ) : ℚ) / 1000) :=
  ⟨rfl, rfl, by decide, rfl⟩

/-- A three-line block whose free text contains no recognizable field. -/
def c8WitnessBlock : List Char := "1\n00:00:01,000 --> 00:00:02,000\nhello world".data

/-- Witness for C8: the field-free block still yields a sample with its
timestamp, and the empty log yields the "no data" error. -/
theorem c8_witness :
    (∃ smp, parse_block c8WitnessBlock = Except.ok (some smp) ∧ smp.timestamp = 1) ∧
    parseSRT "" = Except.error "No telemetry data found" := by
  constructor
  · have hc := c8_parse_errors.2.2.2 c8WitnessBlock 1 (by decide) (by
      have h1 : parse_timestamp_line ((pySplit ['\n'] (pyStrip c8WitnessBlock)).getD 1 []) =
          some (((0 : ℕ) : ℚ) * 3600 + ((0 : ℕ) : ℚ) * 60 + ((1 : ℕ) : ℚ) +
            ((0 : ℕ) : ℚ) / 1000) :=
        rfl
      rw [h1]
      norm_num)
    rcases hc with h | h
    · exact h
    · have hval : parse_block c8WitnessBlock =
          Except.ok (some ⟨((0 : ℕ) : ℚ) * 3600 + ((0 : ℕ) : ℚ) * 60 + ((1 : ℕ) : ℚ) +
            ((0 : ℕ) : ℚ) / 1000, none, none, none, none, none, none, none, none, none⟩) := rfl
      rw [hval] at h
      exact absurd h (by simp)
  · rfl

/-- Log whose two blocks appear in reverse chronological order. -/
def c9OutOfOrder : String :=
  "1\n00:00:02,000 --> 00:00:02,500\nlat: 1.0\n\n2\n00:00:01,000 --> 00:00:01,500\nlat: 2.0"

/-- C9 counterexample: the parser preserves the file order of the blocks, so a
log whose blocks are out of chronological order parses to a timestamp
sequence (2, 1) that is NOT monotonically non-decreasing. -/
theorem c9_counterexample :
    (parseSRT c9OutOfOrder).map (fun l => l.map Sample.timestamp) = Except.ok [2, 1] ∧
    ¬ List.Sorted (· ≤ ·) [(2 : ℚ), 1] := by
  constructor
  · have h0 : (parseSRT c9OutOfOrder).map (fun l => l.map Sample.timestamp) =
        Except.ok
          [((0 : ℕ) : ℚ) * 3600 + ((0 : ℕ) : ℚ) * 60 + ((2 : ℕ) : ℚ) + ((0 : ℕ) : ℚ) / 1000,
            ((0 : ℕ) : ℚ) * 3600 + ((0 : ℕ) : ℚ) * 60 + ((1 : ℕ) : ℚ) + ((0 : ℕ) : ℚ) / 1000] :=
      rfl
    rw [h0]
    norm_num
  · simp only [List.sorted_cons]
    norm_num

/-- C9 (amended): every timestamp the parser outputs is non-negative, and the
output timestamp sequence is exactly the per-block start-time sequence in FILE
order (the parser neither sorts nor reorders); it is therefore monotonic
non-decreasing exactly when the blocks appear in chronological order in the
log, which the code does not enforce. -/
theorem c9_parser_timestamps (content : String) (l : List Sample)
    (h : parseSRT content = Except.ok l) :
    (∀ s ∈ l, 0 ≤ s.timestamp) ∧
    l.map Sample.timestamp =
      (pySplit ['\n', '\n'] (pyStrip content.data)).filterMap
        (fun b => (blockSample b).map Sample.timestamp) ∧
    (List.Sorted (· ≤ ·)
        ((pySplit ['\n', '\n'] (pyStrip content.data)).filterMap
          (fun b => (blockSample b).map Sample.timestamp)) →
      List.Sorted (· ≤ ·) (l.map Sample.timestamp)) := by
  have hl := collectSamples_ok (parseSRT_ok_iff.mp h).1
  have hmap : l.map Sample.timestamp =
      (pySplit ['\n', '\n'] (pyStrip content.data)).filterMap
        (fun b => (blockSample b).map Sample.timestamp) := by
    rw [← hl, List.map_filterMap]
  refine ⟨?_, hmap, ?_⟩
  · intro s hs
    rw [← hl] at hs
    obtain ⟨b, _, hpb⟩ := List.mem_filterMap.mp hs
    exact blockSample_timestamp_nonneg hpb
  · intro hsort
    rw [hmap]
    exact hsort

/-- A well-formed single-block log used to witness C9. -/
def c9WitnessContent : String := "1\n00:00:01,000 --> 00:00:02,000\nfoo"

/-- The sample that log parses to. -/
def c9WitnessSample : Sample :=
  ⟨((0 : ℕ) : ℚ) * 3600 + ((0 : ℕ) : ℚ) * 60 + ((1 : ℕ) : ℚ) + ((0 : ℕ) : ℚ) / 1000,
    none, none, none, none, none, none, none, none, none⟩

/-- Witness for C9 (amended) on the single-block log. -/
theorem c9_witness : 0 ≤ c9WitnessSample.timestamp := by
  have h0 : parseSRT c9WitnessContent = Except.ok [c9WitnessSample] := rfl
  exact (c9_parser_timestamps c9WitnessContent [c9WitnessSample] h0).1 c9WitnessSample (by simp)

/-! ## Infrastructure for the synchronizer claims (C1, C2, C5, C6) -/

/-- Projecting the synchronizer's output onto `(timestamp, linear field)`
exposes the per-column pipeline: the frame-tagged rows of the merged timeline,
each paired with the positionally interpolated column value at its row
index. -/
lemma sync_map_lin (fld : LinField) (samples : List Sample) (frames : List ℚ) :
    (synchronize_and_interpolate samples frames).map (fun r => (r.timestamp, fld.out r)) =
      ((merged samples frames).enum.filter (fun p => !p.2.2.1)).map
        (fun p =>
          (p.2.1, (posInterp (colValues fld.sel (merged samples frames))).getD p.1 none)) := by
  cases fld <;>
    simp only [synchronize_and_interpolate, LinField.out, LinField.sel, List.map_map] <;> rfl

/-- The circular analogue of `sync_map_lin`. -/
lemma sync_map_circ (fld : CircField) (samples : List Sample) (frames : List ℚ) :
    (synchronize_and_interpolate samples frames).map (fun r => (r.timestamp, fld.out r)) =
      ((merged samples frames).enum.filter (fun p => !p.2.2.1)).map
        (fun p =>
          (p.2.1,
            (interpolate_circular ((merged samples frames).map (fun r => r.1))
              (colValues fld.sel (merged samples frames))).getD p.1 none)) := by
  cases fld <;>
    simp only [synchronize_and_interpolate, CircField.out, CircField.sel, List.map_map] <;> rfl

/-- Timestamp projection of the synchronizer's output. -/
lemma sync_map_ts (samples : List Sample) (frames : List ℚ) :
    (synchronize_and_interpolate samples frames).map (fun r => r.timestamp) =
      ((merged samples frames).enum.filter (fun p => !p.2.2.1)).map (fun p => p.2.1) := by
  simp only [synchronize_and_interpolate, List.map_map]
  rfl

/-- When the filtering predicate and the projection ignore the index, an
enumerate-filter-map collapses to a plain filter-map. -/
lemma enumFrom_filter_map {α β : Type} (q : α → Bool) (f : α → β) (n : ℕ) (l : List α) :
    ((List.enumFrom n l).filter (fun x => q x.2)).map (fun x => f x.2) =
      (l.filter q).map f := by
  induction l generalizing n with
  | nil => simp
  | cons a t ih =>
    rw [List.enumFrom, List.filter_cons, List.filter_cons]
    by_cases hq : q a
    · simp [hq, ih]
    · simp [hq, ih]

/-- With pairwise-distinct sample timestamps, at most one telemetry row
matches any timestamp. -/
lemma filter_ts_length_le (samples : List Sample)
    (hdist : (samples.map Sample.timestamp).Pairwise (· ≠ ·)) (x : ℚ) :
    (samples.filter (fun s => decide (s.timestamp = x))).length ≤ 1 := by
  induction samples with
  | nil => simp
  | cons s t ih =>
    rw [List.map_cons, List.pairwise_cons] at hdist
    rw [List.filter_cons]
    by_cases hs : s.timestamp = x
    · rw [if_pos (by simpa using hs)]
      have ht : t.filter (fun u => decide (u.timestamp = x)) = [] := by
        rw [List.filter_eq_nil_iff]
        intro u hu
        simp only [decide_eq_true_eq]
        intro hux
        exact hdist.1 u.timestamp (List.mem_map_of_mem _ hu) (by rw [hs, hux])
      rw [ht]
      simp
    · rw [if_neg (by simpa using hs)]
      exact ih hdist.2

/-- The unique telemetry row matching a timestamp, when there is one. -/
def matchOf (samples : List Sample) (x : ℚ) : Option Sample :=
  (samples.filter (fun s => decide (s.timestamp = x))).head?

/-- With at most one match, the left merge keeps a timeline entry exactly
once. -/
lemma matchedRows_eq (samples : List Sample) (e : ℚ × Bool)
    (h : (samples.filter (fun s => decide (s.timestamp = e.1))).length ≤ 1) :
    matchedRows samples e = [(e.1, e.2, matchOf samples e.1)] := by
  unfold matchedRows matchOf
  rcases hf : samples.filter (fun s => decide (s.timestamp = e.1)) with _ | ⟨s, ss⟩
  · rw [hf]
    rfl
  · rw [hf] at h
    rcases ss with _ | ⟨u, uu⟩
    · rw [hf]
      rfl
    · exact absurd h (by simp)

/-- Under distinct sample timestamps the merged timeline is the combined
timeline decorated with its unique match. -/
lemma merged_eq (samples : List Sample) (frames : List ℚ)
    (hdist : (samples.map Sample.timestamp).Pairwise (· ≠ ·)) :
    merged samples frames =
      (combined samples frames).map (fun e => (e.1, e.2, matchOf samples e.1)) := by
  unfold merged
  generalize combined samples frames = L
  induction L with
  | nil => rfl
  | cons e T ih =>
    rw [List.flatMap_cons, List.map_cons,
      matchedRows_eq samples e (filter_ts_length_le samples hdist e.1), ih]
    rfl

/-- A telemetry row reached through the merge is one of the input samples. -/
lemma merged_mem_sample {samples : List Sample} {frames : List ℚ}
    {r : ℚ × Bool × Option Sample} (h : r ∈ merged samples frames) {s : Sample}
    (h2 : r.2.2 = some s) : s ∈ samples := by
  unfold merged at h
  obtain ⟨e, _, hre⟩ := List.mem_flatMap.mp h
  unfold matchedRows at hre
  rcases hf : samples.filter (fun u => decide (u.timestamp = e.1)) with _ | ⟨m, mm⟩
  · rw [hf] at hre
    rw [List.mem_singleton.mp hre] at h2
    exact absurd h2 (by simp)
  · rw [hf] at hre
    obtain ⟨u, hu, hur⟩ := List.mem_map.mp hre
    rw [← hur] at h2
    simp only [Option.some.injEq] at h2
    rw [← h2]
    exact List.mem_of_mem_filter (by rw [hf]; exact hu)

/-- If a field is missing in every sample, the whole merged column is
missing. -/
lemma colValues_all_none {f : Sample → Option ℚ} {samples : List Sample}
    {frames : List ℚ} (hf : ∀ s ∈ samples, f s = none) :
    ∀ o ∈ colValues f (merged samples frames), o = none := by
  intro o ho
  obtain ⟨r, hr, hro⟩ := List.mem_map.mp ho
  rcases hm : r.2.2 with _ | s
  · rw [← hro, hm]
    rfl
  · rw [← hro, hm]
    simp [hf s (merged_mem_sample hr hm)]

/-- An all-missing column has no valid points. -/
lemma validPointsFrom_all_none {l : List (Option ℚ)} (h : ∀ o ∈ l, o = none) (n : ℕ) :
    validPointsFrom n l = [] := by
  induction l generalizing n with
  | nil => rfl
  | cons a t ih =>
    rcases ha : a with _ | v
    · exact ih (fun o ho => h o (List.mem_cons_of_mem _ ho)) (n + 1)
    · exact absurd (h a (List.mem_cons_self a t)) (by rw [ha]; simp)

/-- Positional interpolation keeps an all-missing column unchanged. -/
lemma posInterp_all_none {vals : List (Option ℚ)} (h : ∀ o ∈ vals, o = none) :
    posInterp vals = vals := by
  unfold posInterp
  rw [show validPoints vals = [] from validPointsFrom_all_none h 0]
  rfl

/-- `getD` on a list of all-missing options is missing. -/
lemma getD_none_of_all_none {α : Type} {l : List (Option α)}
    (h : ∀ o ∈ l, o = none) (i : ℕ) : l.getD i none = none := by
  rw [List.getD_eq_getElem?_getD]
  rcases hg : l[i]? with _ | o
  · rfl
  · rw [h o (List.getElem?_mem hg)]
    rfl

/-- Circular interpolation keeps an all-missing column all-missing. -/
lemma interpolate_circular_all_none {ts : List ℚ} {vals : List (Option ℚ)}
    (h : ∀ o ∈ vals, o = none) :
    ∀ o ∈ interpolate_circular ts vals, o = none := by
  have hvalid : (ts.zip vals).filterMap (fun p => p.2.map (fun v => (p.1, v))) = [] := by
    rw [List.filterMap_eq_nil_iff]
    intro p hp
    rw [h p.2 (List.of_mem_zip hp).2]
    rfl
  intro o ho
  unfold interpolate_circular at ho
  rw [hvalid, if_pos rfl] at ho
  obtain ⟨a, ha, hao⟩ := List.mem_map.mp ho
  rw [← hao, h a ha]
  rfl

/-! ## Claim C6: fields missing everywhere stay missing -/

/-- C6: an interpolable field (linear or circular) with no present value in
any input sample is missing in every record of the synchronizer's output — it
is not zero and not any numeric sentinel. -/
theorem c6_missing_fields (samples : List Sample) (frames : List ℚ) :
    (∀ fld : LinField, (∀ s ∈ samples, fld.sel s = none) →
      ∀ r ∈ synchronize_and_interpolate samples frames, fld.out r = none) ∧
    (∀ fld : CircField, (∀ s ∈ samples, fld.sel s = none) →
      ∀ r ∈ synchronize_and_interpolate samples frames, fld.out r = none) := by
  constructor
  · intro fld hf r hr
    have hpair := List.mem_map_of_mem (fun r => (r.timestamp, fld.out r)) hr
    rw [sync_map_lin] at hpair
    obtain ⟨p, _, heq⟩ := List.mem_map.mp hpair
    have h2 : fld.out r =
        (posInterp (colValues fld.sel (merged samples frames))).getD p.1 none :=
      (congrArg Prod.snd heq).symm
    rw [h2, posInterp_all_none (colValues_all_none hf)]
    exact getD_none_of_all_none (colValues_all_none hf) p.1
  · intro fld hf r hr
    have hpair := List.mem_map_of_mem (fun r => (r.timestamp, fld.out r)) hr
    rw [sync_map_circ] at hpair
    obtain ⟨p, _, heq⟩ := List.mem_map.mp hpair
    have h2 : fld.out r =
        (interpolate_circular ((merged samples frames).map (fun r => r.1))
          (colValues fld.sel (merged samples frames))).getD p.1 none :=
      (congrArg Prod.snd heq).symm
    rw [h2]
    exact getD_none_of_all_none (interpolate_circular_all_none (colValues_all_none hf)) p.1

/-- A single all-missing sample, for the C6 witness. -/
def c6Samples : List Sample := [⟨0, none, none, none, none, none, none, none, none, none⟩]

/-- The output record for that input at the frame timestamp `1`. -/
def c6Out : FrameRecord := ⟨1, none, none, none, none, none, none, none, none, none⟩

/-- Witness for C6: with no latitude and no yaw anywhere, the output frame
record keeps both missing. -/
theorem c6_witness : LinField.latitude.out c6Out = none ∧ CircField.yaw.out c6Out = none := by
  have h0 : synchronize_and_interpolate c6Samples [1] = [c6Out] := rfl
  have hmem : c6Out ∈ synchronize_and_interpolate c6Samples [1] := by
    rw [h0]
    exact List.mem_singleton.mpr rfl
  exact ⟨(c6_missing_fields c6Samples [1]).1 .latitude (by simp [c6Samples, LinField.sel]) c6Out hmem,
    (c6_missing_fields c6Samples [1]).2 .yaw (by simp [c6Samples, CircField.sel]) c6Out hmem⟩

/-! ## Claim C1: which variable the linear interpolation runs in -/

/-- Samples for the C1 counterexample: latitude `0` at `t=0` and `3` at `t=3`,
deliberately NOT evenly spaced around the frame at `t=1`. -/
def c1Samples : List Sample :=
  [⟨0, some 0, none, none, none, none, none, none, none, none⟩,
    ⟨3, some 3, none, none, none, none, none, none, none, none⟩]

/-- C1 counterexample: with present values `(t=0, lat=0)` and `(t=3, lat=3)`
and a frame at `t=1`, standard piecewise-linear interpolation in the timestamp
variable gives `1`, but the code outputs `3/2`: pandas' `method='linear'`
interpolates in row position (the frame row sits midway between the two
telemetry rows), not in the timestamp. -/
theorem c1_counterexample :
    (synchronize_and_interpolate c1Samples [1]).map (fun r => (r.timestamp, r.latitude)) =
      [(1, some (3 / 2))] ∧
    specTimestampInterp [(0, 0), (3, 3)] 1 = 1 ∧
    (3 / 2 : ℚ) ≠ 1 := by
  refine ⟨?_, ?_, by norm_num⟩
  · simp [c1Samples, synchronize_and_interpolate, merged, combined, List.insertionSort,
      List.orderedInsert, tsLE, matchedRows, List.filter, colValues, posInterp, validPoints,
      validPointsFrom, npInterpQ, List.enum, List.enumFrom, List.range, List.range.loop,
      List.getD, Option.bind]
    try norm_num
  · simp [specTimestampInterp, npInterpQ]
    try norm_num

/-- A sample whose only present linear field is `fld`, with value `v`. -/
def mkLinSample : LinField → ℚ → ℚ → Sample
  | .latitude, t, v => ⟨t, some v, none, none, none, none, none, none, none, none⟩
  | .longitude, t, v => ⟨t, none, some v, none, none, none, none, none, none, none⟩
  | .altitude, t, v => ⟨t, none, none, some v, none, none, none, none, none, none⟩
  | .rel_altitude, t, v => ⟨t, none, none, none, some v, none, none, none, none, none⟩
  | .gimbal_pitch, t, v => ⟨t, none, none, none, none, some v, none, none, none, none⟩

/-- C1 (amended): the code interpolates each linear field linearly in the ROW
POSITION of the combined sorted timeline, which agrees with standard
piecewise-linear interpolation in the timestamp variable when the rows between
two present samples are evenly spaced in time.  In particular, for every
linear field, samples at `t=0` and `t=2` with one frame at the midpoint `t=1`
give the average of the two values — exactly the timestamp interpolation
(which yields `-34.1` for the spec's `-34.0 / -34.2` example). -/
theorem c1_midpoint_interpolation (fld : LinField) (v0 v1 : ℚ) :
    (synchronize_and_interpolate [mkLinSample fld 0 v0, mkLinSample fld 2 v1] [1]).map
        (fun r => (r.timestamp, fld.out r)) =
      [(1, some ((v0 + v1) / 2))] ∧
    specTimestampInterp [(0, v0), (2, v1)] 1 = (v0 + v1) / 2 := by
  constructor
  · cases fld <;>
      · simp [mkLinSample, LinField.out, synchronize_and_interpolate, merged, combined,
          List.insertionSort, List.orderedInsert, tsLE, matchedRows, List.filter, colValues,
          posInterp, validPoints, validPointsFrom, npInterpQ, List.enum, List.enumFrom,
          List.range, List.range.loop, List.getD, Option.bind]
        try norm_num
        try ring
  · simp [specTimestampInterp, npInterpQ]
    norm_num
    try ring

/-! ## Claim C2: output length and order -/

/-- Two telemetry samples sharing the timestamp `1`, for the C2
counterexample. -/
def c2DupSamples : List Sample :=
  [⟨1, none, none, none, none, none, none, none, none, none⟩,
    ⟨1, none, none, none, none, none, none, none, none, none⟩]

/-- C2 counterexample: when two samples share a timestamp that coincides with
a frame timestamp, the left merge duplicates the frame row, so the output has
2 records for 1 frame timestamp — the length invariant fails as universally
stated. -/
theorem c2_counterexample :
    (synchronize_and_interpolate c2DupSamples [1]).length = 2 ∧
    ([(1 : ℚ)].length = 1) ∧ (2 : ℕ) ≠ 1 := by
  refine ⟨?_, rfl, by decide⟩
  rfl

/-- C2 (amended): provided the sample timestamps are pairwise distinct and the
frame timestamps are sorted non-decreasingly (as the frame timetable builder
produces them), the synchronizer returns exactly one record per frame
timestamp, in order: the output timestamp sequence equals the input frame
list, and in particular the lengths agree. -/
theorem c2_length_order (samples : List Sample) (frames : List ℚ)
    (hdist : (samples.map Sample.timestamp).Pairwise (· ≠ ·))
    (hsorted : List.Sorted (· ≤ ·) frames) :
    (synchronize_and_interpolate samples frames).map (fun r => r.timestamp) = frames ∧
    (synchronize_and_interpolate samples frames).length = frames.length := by
  have hstep1 : (synchronize_and_interpolate samples frames).map (fun r => r.timestamp) =
      ((merged samples frames).filter (fun r => !r.2.1)).map (fun r => r.1) := by
    rw [sync_map_ts]
    exact enumFrom_filter_map (fun r => !r.2.1) (fun r => r.1) 0 (merged samples frames)
  have hstep2 : ((merged samples frames).filter (fun r => !r.2.1)).map (fun r => r.1) =
      ((combined samples frames).filter (fun e => !e.2)).map (fun e => e.1) := by
    rw [merged_eq samples frames hdist, List.filter_map, List.map_map]
    rfl
  have hperm : (((combined samples frames).filter (fun e => !e.2)).map (fun e => e.1)).Perm
      frames := by
    have hbase : (((samples.map (fun s => (s.timestamp, true)) ++
        frames.map (fun t => (t, false))).filter (fun e => !e.2)).map (fun e => e.1)) = frames := by
      rw [List.filter_append]
      have h1 : (samples.map (fun s => (s.timestamp, true))).filter (fun e => !e.2) = [] := by
        rw [List.filter_eq_nil_iff]
        intro e he
        obtain ⟨s, _, hse⟩ := List.mem_map.mp he
        rw [← hse]
        simp
      have h2 : (frames.map (fun t => (t, false))).filter (fun e => !e.2) =
          frames.map (fun t => (t, false)) := by
        rw [List.filter_eq_self]
        intro e he
        obtain ⟨t, _, hte⟩ := List.mem_map.mp he
        rw [← hte]
        simp
      rw [h1, h2, List.nil_append, List.map_map]
      exact List.map_id frames
    have hp : (((combined samples frames).filter (fun e => !e.2)).map (fun e => e.1)).Perm
        (((samples.map (fun s => (s.timestamp, true)) ++
          frames.map (fun t => (t, false))).filter (fun e => !e.2)).map (fun e => e.1)) :=
      List.Perm.map _ (List.Perm.filter _ (List.perm_insertionSort tsLE _))
    rw [hbase] at hp
    exact hp
  have hsortcomb : List.Sorted (· ≤ ·)
      (((combined samples frames).filter (fun e => !e.2)).map (fun e => e.1)) := by
    have h1 : List.Sorted tsLE (combined samples frames) := List.sorted_insertionSort tsLE _
    have h2 : List.Sorted tsLE ((combined samples frames).filter (fun e => !e.2)) :=
      h1.filter (fun e => !e.2)
    have h3 : List.Pairwise (fun a b : ℚ × Bool => a.1 ≤ b.1)
        ((combined samples frames).filter (fun e => !e.2)) := h2
    exact List.pairwise_map.mpr h3
  have hmap : (synchronize_and_interpolate samples frames).map (fun r => r.timestamp) = frames := by
    rw [hstep1, hstep2]
    exact List.eq_of_perm_of_sorted hperm hsortcomb hsorted
  refine ⟨hmap, ?_⟩
  calc (synchronize_and_interpolate samples frames).length
      = ((synchronize_and_interpolate samples frames).map (fun r => r.timestamp)).length :=
        (List.length_map _ _).symm
    _ = frames.length := by rw [hmap]

/-! ## Claim C3: circular interpolation across the 0/360 boundary -/

/-- Samples for C3: yaw 350° at `t=0`, 0° at `t=1`, 10° at `t=2`. -/
def c3Samples : List Sample :=
  [⟨0, none, none, none, none, none, none, some 350, none, none⟩,
    ⟨1, none, none, none, none, none, none, some 0, none, none⟩,
    ⟨2, none, none, none, none, none, none, some 10, none, none⟩]

/-- C3: interpolating the yaw of the samples `(0, 350°), (1, 0°), (2, 10°)` at
the frame timestamp `t = 0.5` yields a value in `[350, 360) ∪ [0, 5]` — the
short way around the 0°/360° boundary, never near 180°.  (The value is in fact
exactly 355°, the angular bisector of 350° and 0°.) -/
theorem c3_circular_wrap :
    ∃ v : ℝ, (synchronize_and_interpolate c3Samples [1 / 2]).map FrameRecord.yaw = [some v] ∧
      ((350 ≤ v ∧ v < 360) ∨ (0 ≤ v ∧ v ≤ 5)) := by
  have hmap : (synchronize_and_interpolate c3Samples [1 / 2]).map FrameRecord.yaw =
      [(interpolate_circular [0, 1 / 2, 1, 2] [some 350, none, some 0, some 10]).getD 1 none] := by
    simp [c3Samples, synchronize_and_interpolate, merged, combined, List.insertionSort,
      List.orderedInsert, tsLE, matchedRows, List.filter, colValues, List.enum, List.enumFrom,
      List.getD, Function.comp,
      show ¬ (2 : ℚ) ≤ 2⁻¹ from by norm_num, show ¬ (1 : ℚ) ≤ 2⁻¹ from by norm_num,
      show (0 : ℚ) ≤ 2⁻¹ from by norm_num, show ¬ (2 : ℚ) ≤ 1 from by norm_num,
      show ¬ (0 : ℚ) = 2⁻¹ from by norm_num, show ¬ (1 : ℚ) = 2⁻¹ from by norm_num,
      show ¬ (2 : ℚ) = 2⁻¹ from by norm_num, show ¬ (2⁻¹ : ℚ) ≤ 0 from by norm_num,
      show (2⁻¹ : ℚ) ≤ 1 from by norm_num, show (2⁻¹ : ℚ) ≤ 2 from by norm_num]
  have hval : (interpolate_circular [0, 1 / 2, 1, 2] [some 350, none, some 0, some 10]).getD 1
        none =
      some (npFmod (rad2deg (arctan2
        (npInterpR (1 / 2) [(0, Real.sin (deg2rad 350)), (1, Real.sin (deg2rad 0)),
          (2, Real.sin (deg2rad 10))])
        (npInterpR (1 / 2) [(0, Real.cos (deg2rad 350)), (1, Real.cos (deg2rad 0)),
          (2, Real.cos (deg2rad 10))]))) 360) := by
    simp [interpolate_circular, List.getD]
  rw [hmap, hval]
  refine ⟨_, rfl, ?_⟩
  left
  -- Evaluate the two interpolated components at t = 1/2.
  have hS : npInterpR (1 / 2) [(0, Real.sin (deg2rad 350)), (1, Real.sin (deg2rad 0)),
      (2, Real.sin (deg2rad 10))] = Real.sin (deg2rad 350) / 2 := by
    rw [npInterpR]
    rw [if_neg (by norm_num), if_pos (by norm_num)]
    rw [show deg2rad 0 = 0 from by rw [deg2rad]; ring, Real.sin_zero]
    push_cast
    ring
  have hC : npInterpR (1 / 2) [(0, Real.cos (deg2rad 350)), (1, Real.cos (deg2rad 0)),
      (2, Real.cos (deg2rad 10))] = (Real.cos (deg2rad 350) + 1) / 2 := by
    rw [npInterpR]
    rw [if_neg (by norm_num), if_pos (by norm_num)]
    rw [show deg2rad 0 = 0 from by rw [deg2rad]; ring, Real.cos_zero]
    push_cast
    ring
  -- 350° is 2π - π/18 in radians.
  have hd350 : deg2rad 350 = 2 * Real.pi - Real.pi / 18 := by
    rw [deg2rad]
    ring
  have hsin350 : Real.sin (deg2rad 350) = -Real.sin (Real.pi / 18) := by
    rw [hd350, Real.sin_two_pi_sub]
  have hcos350 : Real.cos (deg2rad 350) = Real.cos (Real.pi / 18) := by
    rw [hd350, Real.cos_two_pi_sub]
  have hpi := Real.pi_pos
  have hsa : 0 < Real.sin (Real.pi / 18) :=
    Real.sin_pos_of_pos_of_lt_pi (by positivity) (by linarith)
  have hca : 0 < Real.cos (Real.pi / 18) :=
    Real.cos_pos_of_mem_Ioo ⟨by linarith, by linarith⟩
  rw [hS, hC, hsin350, hcos350]
  -- The vector has a positive cosine component, so arctan2 is a plain arctan.
  have hCpos : (0 : ℝ) < (Real.cos (Real.pi / 18) + 1) / 2 := by linarith
  rw [arctan2, if_pos hCpos]
  -- The quotient of the components.
  have hSC : -Real.sin (Real.pi / 18) / 2 / ((Real.cos (Real.pi / 18) + 1) / 2) =
      -Real.sin (Real.pi / 18) / (Real.cos (Real.pi / 18) + 1) := by
    have h1 : Real.cos (Real.pi / 18) + 1 ≠ 0 := by linarith
    field_simp
    ring
  rw [hSC]
  -- Bounds on the arctan: strictly between -π/18 and 0.
  have hratio_neg : -Real.sin (Real.pi / 18) / (Real.cos (Real.pi / 18) + 1) < 0 :=
    div_neg_of_neg_of_pos (by linarith) (by linarith)
  have hθ0 : Real.arctan (-Real.sin (Real.pi / 18) / (Real.cos (Real.pi / 18) + 1)) < 0 := by
    have := Real.arctan_strictMono hratio_neg
    rwa [Real.arctan_zero] at this
  have htan : Real.tan (-(Real.pi / 18)) = -Real.sin (Real.pi / 18) / Real.cos (Real.pi / 18) := by
    rw [Real.tan_eq_sin_div_cos, Real.sin_neg, Real.cos_neg]
  have hlt : Real.tan (-(Real.pi / 18)) <
      -Real.sin (Real.pi / 18) / (Real.cos (Real.pi / 18) + 1) := by
    rw [htan, div_lt_div_iff₀ hca (by linarith)]
    nlinarith
  have hθ1 : -(Real.pi / 18) <
      Real.arctan (-Real.sin (Real.pi / 18) / (Real.cos (Real.pi / 18) + 1)) := by
    have harc := Real.arctan_strictMono hlt
    rwa [Real.arctan_tan (by linarith) (by linarith)] at harc
  -- Convert to degrees: the angle is in (-10, 0).
  set θ := Real.arctan (-Real.sin (Real.pi / 18) / (Real.cos (Real.pi / 18) + 1)) with hθdef
  have hd0 : rad2deg θ < 0 := by
    rw [rad2deg]
    exact div_neg_of_neg_of_pos (by nlinarith) hpi
  have hd1 : -10 < rad2deg θ := by
    rw [rad2deg, lt_div_iff₀ hpi]
    nlinarith
  -- The numpy modulo shifts it into (350, 360).
  have hfloor : ⌊rad2deg θ / 360⌋ = -1 := by
    rw [Int.floor_eq_iff]
    constructor
    · push_cast
      rw [le_div_iff₀ (by norm_num : (0 : ℝ) < 360)]
      nlinarith
    · push_cast
      have : rad2deg θ / 360 < 0 := div_neg_of_neg_of_pos hd0 (by norm_num)
      linarith
  have hfmod : npFmod (rad2deg θ) 360 = rad2deg θ + 360 := by
    rw [npFmod, hfloor]
    push_cast
    ring
  rw [hfmod]
  constructor
  · linarith
  · linarith

/-! ## Claim C5: clamping at the ends of the data range -/

/-- `np.interp` left clamp: at or before the x-minimal sample point, the
interpolation returns that point's value. -/
lemma npInterpQ_min_clamp (x : ℚ) :
    ∀ (pts : List (ℚ × ℚ)) (q : ℚ × ℚ), q ∈ pts → x ≤ q.1 → (∀ r ∈ pts, q.1 ≤ r.1) →
      List.Pairwise (fun a b : ℚ × ℚ => a.1 < b.1) pts → npInterpQ x pts = q.2 := by
  intro pts
  induction pts with
  | nil => intro q hq _ _ _; exact absurd hq (List.not_mem_nil q)
  | cons p rest ih =>
    intro q hq hx hmin hpw
    rcases rest with _ | ⟨p₂, rest₂⟩
    · rcases p with ⟨a, y⟩
      rw [List.mem_singleton.mp hq]
      rfl
    · rcases p with ⟨x₁, y₁⟩
      rcases p₂ with ⟨x₂, y₂⟩
      rcases List.mem_cons.mp hq with rfl | hqtail
      · rw [npInterpQ, if_pos hx]
      · have h1 : x₁ < q.1 := (List.pairwise_cons.mp hpw).1 q hqtail
        have h2 : q.1 ≤ x₁ := hmin (x₁, y₁) (List.mem_cons_self _ _)
        exact absurd h1 (not_lt.mpr h2)

/-- `np.interp` right clamp: strictly past every sample point, the
interpolation returns the value of the x-maximal one. -/
lemma npInterpQ_max_clamp (x : ℚ) :
    ∀ (pts : List (ℚ × ℚ)) (q : ℚ × ℚ), q ∈ pts → (∀ r ∈ pts, r.1 < x) → (∀ r ∈ pts, r.1 ≤ q.1) →
      List.Pairwise (fun a b : ℚ × ℚ => a.1 < b.1) pts → npInterpQ x pts = q.2 := by
  intro pts
  induction pts with
  | nil => intro q hq _ _ _; exact absurd hq (List.not_mem_nil q)
  | cons p rest ih =>
    intro q hq hall hmax hpw
    rcases rest with _ | ⟨p₂, rest₂⟩
    · rcases p with ⟨a, y⟩
      rw [List.mem_singleton.mp hq]
      rfl
    · rcases p with ⟨x₁, y₁⟩
      rcases p₂ with ⟨x₂, y₂⟩
      have hq2 : q ∈ (x₂, y₂) :: rest₂ := by
        rcases List.mem_cons.mp hq with rfl | hqtail
        · have h1 : x₁ < x₂ := (List.pairwise_cons.mp hpw).1 (x₂, y₂) (List.mem_cons_self _ _)
          have h2 : x₂ ≤ x₁ := hmax (x₂, y₂) (List.mem_cons_of_mem _ (List.mem_cons_self _ _))
          exact absurd h1 (not_lt.mpr h2)
        · exact hqtail
      rw [npInterpQ, if_neg (not_le.mpr (hall (x₁, y₁) (List.mem_cons_self _ _))),
        if_neg (not_le.mpr (hall (x₂, y₂) (List.mem_cons_of_mem _ (List.mem_cons_self _ _))))]
      exact ih q hq2 (fun r hr => hall r (List.mem_cons_of_mem _ hr))
        (fun r hr => hmax r (List.mem_cons_of_mem _ hr)) (List.pairwise_cons.mp hpw).2

/-- Membership in the valid-point list, in terms of the column contents. -/
lemma validPointsFrom_mem_iff {y : ℚ} {k : ℕ} :
    ∀ {l : List (Option ℚ)} {n : ℕ},
      (k, y) ∈ validPointsFrom n l ↔ ∃ j, k = n + j ∧ l[j]? = some (some y) := by
  intro l
  induction l with
  | nil => intro n; simp [validPointsFrom]
  | cons a t ih =>
    intro n
    cases a with
    | none =>
      rw [validPointsFrom, ih]
      constructor
      · rintro ⟨j, hk, hj⟩
        exact ⟨j + 1, by omega, by simpa using hj⟩
      · rintro ⟨j, hk, hj⟩
        rcases j with _ | j
        · exact absurd hj (by simp)
        · exact ⟨j, by omega, by simpa using hj⟩
    | some v =>
      rw [validPointsFrom]
      constructor
      · intro hmem
        rcases List.mem_cons.mp hmem with heq | htail
        · injection heq with h1 h2
          exact ⟨0, by omega, by rw [h2]; simp⟩
        · obtain ⟨j, hk, hj⟩ := ih.mp htail
          exact ⟨j + 1, by omega, by simpa using hj⟩
      · rintro ⟨j, hk, hj⟩
        rcases j with _ | j
        · simp only [List.getElem?_cons_zero, Option.some.injEq] at hj
          rw [show k = n from by omega, hj]
          exact List.mem_cons_self _ _
        · exact List.mem_cons_of_mem _ (ih.mpr ⟨j, by omega, by simpa using hj⟩)

/-- Valid-point positions are bounded below by the running index. -/
lemma validPointsFrom_lb : ∀ (l : List (Option ℚ)) (n : ℕ) (q : ℕ × ℚ),
    q ∈ validPointsFrom n l → n ≤ q.1 := by
  intro l
  induction l with
  | nil => intro n q hq; exact absurd hq (List.not_mem_nil q)
  | cons a t ih =>
    intro n q hq
    cases a with
    | none => exact le_trans (Nat.le_succ n) (ih (n + 1) q hq)
    | some v =>
      rcases List.mem_cons.mp hq with rfl | htail
      · rfl
      · exact le_trans (Nat.le_succ n) (ih (n + 1) q htail)

/-- Valid-point positions are strictly increasing. -/
lemma validPointsFrom_pairwise : ∀ (l : List (Option ℚ)) (n : ℕ),
    List.Pairwise (fun a b : ℕ × ℚ => a.1 < b.1) (validPointsFrom n l) := by
  intro l
  induction l with
  | nil => intro n; exact List.Pairwise.nil
  | cons a t ih =>
    intro n
    cases a with
    | none => exact ih (n + 1)
    | some v =>
      rw [validPointsFrom, List.pairwise_cons]
      exact ⟨fun q hq => lt_of_lt_of_le (Nat.lt_succ_self n) (validPointsFrom_lb t (n + 1) q hq),
        ih (n + 1)⟩

/-- Every non-empty list of indexed points has an entry with maximal index. -/
lemma exists_max_fst {α : Type} : ∀ {l : List (ℕ × α)}, l ≠ [] →
    ∃ q ∈ l, ∀ r ∈ l, r.1 ≤ q.1 := by
  intro l
  induction l with
  | nil => intro h; exact absurd rfl h
  | cons p rest ih =>
    intro _
    rcases rest with _ | ⟨p₂, rest₂⟩
    · exact ⟨p, List.mem_singleton.mpr rfl, fun r hr => by rw [List.mem_singleton.mp hr]⟩
    · obtain ⟨q, hq, hqmax⟩ := ih (by simp)
      rcases le_total p.1 q.1 with hle | hle
      · refine ⟨q, List.mem_cons_of_mem _ hq, fun r hr => ?_⟩
        rcases List.mem_cons.mp hr with rfl | hrtail
        · exact hle
        · exact hqmax r hrtail
      · refine ⟨p, List.mem_cons_self _ _, fun r hr => ?_⟩
        rcases List.mem_cons.mp hr with rfl | hrtail
        · exact le_rfl
        · exact le_trans (hqmax r hrtail) hle

/-- A successful `matchOf` returns one of the samples, with the matched
timestamp. -/
lemma matchOf_eq_some {samples : List Sample} {x : ℚ} {m : Sample}
    (h : matchOf samples x = some m) : m ∈ samples ∧ m.timestamp = x := by
  unfold matchOf at h
  obtain ⟨ys, hys⟩ := List.head?_eq_some_iff.mp h
  have hm : m ∈ samples.filter (fun s => decide (s.timestamp = x)) := by
    rw [hys]
    exact List.mem_cons_self _ _
  refine ⟨List.mem_of_mem_filter hm, ?_⟩
  have := List.of_mem_filter hm
  simpa using this

/-- Under distinct timestamps, `matchOf` at a sample's own timestamp returns
exactly that sample. -/
lemma matchOf_of_mem {samples : List Sample}
    (hdist : (samples.map Sample.timestamp).Pairwise (· ≠ ·)) {s : Sample} (hs : s ∈ samples) :
    matchOf samples s.timestamp = some s := by
  have hlen := filter_ts_length_le samples hdist s.timestamp
  have hmem : s ∈ samples.filter (fun u => decide (u.timestamp = s.timestamp)) :=
    List.mem_filter.mpr ⟨hs, by simp⟩
  unfold matchOf
  rcases hf : samples.filter (fun u => decide (u.timestamp = s.timestamp)) with _ | ⟨a, t⟩
  · rw [hf] at hmem
    exact absurd hmem (List.not_mem_nil s)
  · rw [hf] at hmem hlen
    rcases t with _ | ⟨b, t2⟩
    · rw [hf, List.mem_singleton.mp hmem]
      rfl
    · exact absurd hlen (by simp)

/-- Timestamps along the combined timeline are monotone in the row index. -/
lemma combined_mono {samples : List Sample} {frames : List ℚ} {i j : ℕ} {ei ej : ℚ × Bool}
    (hij : i ≤ j) (hi : (combined samples frames)[i]? = some ei)
    (hj : (combined samples frames)[j]? = some ej) : ei.1 ≤ ej.1 := by
  rcases eq_or_lt_of_le hij with rfl | hlt
  · rw [hi] at hj
    injection hj with h
    rw [h]
  · have hsor : List.Sorted tsLE (combined samples frames) := List.sorted_insertionSort tsLE _
    obtain ⟨hi2, hival⟩ := List.getElem?_eq_some_iff.mp hi
    obtain ⟨hj2, hjval⟩ := List.getElem?_eq_some_iff.mp hj
    have hts := List.pairwise_iff_get.mp hsor ⟨i, hi2⟩ ⟨j, hj2⟩ (Fin.mk_lt_mk.mpr hlt)
    rw [List.get_eq_getElem, List.get_eq_getElem] at hts
    rw [hival, hjval] at hts
    exact hts

/-- The value a column of the merged timeline carries at a given timestamp:
the selected field of the unique matching sample, when both exist. -/
def mvCol (samples : List Sample) (f : Sample → Option ℚ) (x : ℚ) : Option ℚ :=
  (matchOf samples x).bind f

/-- C5: under pairwise-distinct sample timestamps, for every linear field
whose present values start at sample `s₁` (value `v₁`) and end at sample `s₂`
(value `v₂`), every output record whose frame timestamp lies strictly before
`s₁.timestamp` carries exactly `v₁`, and strictly after `s₂.timestamp` carries
exactly `v₂` — the clamp-to-nearest-boundary rule, with no extrapolation. -/
theorem c5_clamp (fld : LinField) (samples : List Sample) (frames : List ℚ)
    (hdist : (samples.map Sample.timestamp).Pairwise (· ≠ ·))
    (s₁ s₂ : Sample) (hs₁ : s₁ ∈ samples) (hs₂ : s₂ ∈ samples)
    (v₁ v₂ : ℚ) (hv₁ : fld.sel s₁ = some v₁) (hv₂ : fld.sel s₂ = some v₂)
    (hfirst : ∀ s ∈ samples, fld.sel s ≠ none → s₁.timestamp ≤ s.timestamp)
    (hlast : ∀ s ∈ samples, fld.sel s ≠ none → s.timestamp ≤ s₂.timestamp) :
    ∀ p ∈ (synchronize_and_interpolate samples frames).map (fun r => (r.timestamp, fld.out r)),
      (p.1 < s₁.timestamp → p.2 = some v₁) ∧ (s₂.timestamp < p.1 → p.2 = some v₂) := by
  intro p hp
  rw [sync_map_lin] at hp
  obtain ⟨q, hq, hpq⟩ := List.mem_map.mp hp
  rw [List.mem_filter] at hq
  obtain ⟨hqenum, _⟩ := hq
  -- The row of the merged timeline behind the output pair.
  have hrowq : (merged samples frames)[q.1]? = some q.2 := by
    obtain ⟨i, hi⟩ := List.mem_iff_getElem?.mp hqenum
    rw [show (merged samples frames).enum = List.enumFrom 0 (merged samples frames) from rfl,
      List.getElem?_enumFrom] at hi
    rcases hmm : (merged samples frames)[i]? with _ | row
    · rw [hmm] at hi
      exact absurd hi (by simp)
    · rw [hmm] at hi
      have hqi : ((0 + i, row) : ℕ × ℚ × Bool × Option Sample) = q := by simpa using hi
      rw [← hqi]
      simpa using hmm
  have hM := merged_eq samples frames hdist
  -- The combined-timeline entry behind that row.
  obtain ⟨e, hCe, hge⟩ :
      ∃ e, (combined samples frames)[q.1]? = some e ∧ (e.1, e.2, matchOf samples e.1) = q.2 := by
    rw [hM, List.getElem?_map] at hrowq
    rcases hc : (combined samples frames)[q.1]? with _ | e
    · rw [hc] at hrowq
      exact absurd hrowq (by simp)
    · rw [hc] at hrowq
      exact ⟨e, rfl, by simpa using hrowq⟩
  have hp1 : p.1 = e.1 := by
    rw [← hpq]
    show q.2.1 = e.1
    rw [← hge]
  have hp2 : p.2 = (posInterp (colValues fld.sel (merged samples frames))).getD q.1 none := by
    rw [← hpq]
  -- The column as a function of the combined entries.
  have hvals : colValues fld.sel (merged samples frames) =
      (combined samples frames).map (fun e => mvCol samples fld.sel e.1) := by
    rw [hM]
    unfold colValues mvCol
    rw [List.map_map]
    rfl
  have hvlen : (colValues fld.sel (merged samples frames)).length =
      (combined samples frames).length := by
    rw [hvals, List.length_map]
  have hvalsAt : ∀ (i : ℕ) (ei : ℚ × Bool), (combined samples frames)[i]? = some ei →
      (colValues fld.sel (merged samples frames))[i]? =
        some (mvCol samples fld.sel ei.1) := by
    intro i ei hei
    rw [hvals, List.getElem?_map, hei]
    rfl
  have hvalsAt2 : ∀ (i : ℕ) (o : Option ℚ),
      (colValues fld.sel (merged samples frames))[i]? = some o →
      ∃ ei, (combined samples frames)[i]? = some ei ∧ mvCol samples fld.sel ei.1 = o := by
    intro i o ho
    rw [hvals, List.getElem?_map] at ho
    rcases hc : (combined samples frames)[i]? with _ | ei
    · rw [hc] at ho
      exact absurd ho (by simp)
    · rw [hc] at ho
      exact ⟨ei, rfl, by simpa using ho⟩
  have hmv_present : ∀ {x y : ℚ}, mvCol samples fld.sel x = some y →
      ∃ s ∈ samples, s.timestamp = x ∧ fld.sel s = some y := by
    intro x y hxy
    unfold mvCol at hxy
    rcases hmo : matchOf samples x with _ | m
    · rw [hmo] at hxy
      exact absurd hxy (by simp)
    · rw [hmo] at hxy
      obtain ⟨hm1, hm2⟩ := matchOf_eq_some hmo
      exact ⟨m, hm1, hm2, by simpa using hxy⟩
  have hmv_at : ∀ {s : Sample}, s ∈ samples → mvCol samples fld.sel s.timestamp = fld.sel s := by
    intro s hs
    unfold mvCol
    rw [matchOf_of_mem hdist hs]
    rfl
  -- The entries of the two boundary samples in the combined timeline.
  have hs₁C : ((s₁.timestamp, true) : ℚ × Bool) ∈ combined samples frames :=
    (List.Perm.mem_iff (List.perm_insertionSort tsLE _)).mpr
      (List.mem_append_left _ (List.mem_map_of_mem _ hs₁))
  obtain ⟨m₁, hm₁⟩ := List.mem_iff_getElem?.mp hs₁C
  have hvm₁ : (colValues fld.sel (merged samples frames))[m₁]? = some (some v₁) := by
    rw [hvalsAt m₁ (s₁.timestamp, true) hm₁]
    rw [show mvCol samples fld.sel ((s₁.timestamp, true) : ℚ × Bool).1 = fld.sel s₁ from
      hmv_at hs₁, hv₁]
  have hs₂C : ((s₂.timestamp, true) : ℚ × Bool) ∈ combined samples frames :=
    (List.Perm.mem_iff (List.perm_insertionSort tsLE _)).mpr
      (List.mem_append_left _ (List.mem_map_of_mem _ hs₂))
  obtain ⟨m₂, hm₂⟩ := List.mem_iff_getElem?.mp hs₂C
  have hvm₂ : (colValues fld.sel (merged samples frames))[m₂]? = some (some v₂) := by
    rw [hvalsAt m₂ (s₂.timestamp, true) hm₂]
    rw [show mvCol samples fld.sel ((s₂.timestamp, true) : ℚ × Bool).1 = fld.sel s₂ from
      hmv_at hs₂, hv₂]
  -- The valid points of the column.
  have hvp₁ : (m₁, v₁) ∈ validPoints (colValues fld.sel (merged samples frames)) :=
    validPointsFrom_mem_iff.mpr ⟨m₁, by omega, hvm₁⟩
  have hvp₂ : (m₂, v₂) ∈ validPoints (colValues fld.sel (merged samples frames)) :=
    validPointsFrom_mem_iff.mpr ⟨m₂, by omega, hvm₂⟩
  have hvpne : validPoints (colValues fld.sel (merged samples frames)) ≠ [] :=
    List.ne_nil_of_mem hvp₁
  set pts := (validPoints (colValues fld.sel (merged samples frames))).map
    (fun p => ((p.1 : ℚ), p.2)) with hptsdef
  have hptsne : pts ≠ [] := by
    rw [hptsdef]
    exact fun h => hvpne (List.map_eq_nil_iff.mp h)
  have hPI : posInterp (colValues fld.sel (merged samples frames)) =
      (List.range (colValues fld.sel (merged samples frames)).length).map
        (fun i : ℕ => some (npInterpQ (i : ℚ) pts)) := by
    simp only [posInterp]
    rw [← hptsdef, if_neg hptsne]
  have hqlt : q.1 < (combined samples frames).length := (List.getElem?_eq_some_iff.mp hCe).1
  have hpval : p.2 = some (npInterpQ ((q.1 : ℕ) : ℚ) pts) := by
    rw [hp2, hPI, List.getD_eq_getElem?_getD, List.getElem?_map,
      List.getElem?_range (by rw [hvlen]; exact hqlt)]
    rfl
  have hptspw : List.Pairwise (fun a b : ℚ × ℚ => a.1 < b.1) pts := by
    rw [hptsdef]
    refine List.pairwise_map.mpr ((validPointsFrom_pairwise _ 0).imp ?_)
    intro a b hab
    simpa using (Nat.cast_lt (α := ℚ)).mpr hab
  -- Every valid point sits at a present sample's timestamp, inside the data range.
  have hmem_pts : ∀ r ∈ pts, ∃ (k : ℕ) (er : ℚ × Bool), r.1 = (k : ℚ) ∧
      (combined samples frames)[k]? = some er ∧
      s₁.timestamp ≤ er.1 ∧ er.1 ≤ s₂.timestamp := by
    intro r hr
    rw [hptsdef] at hr
    obtain ⟨⟨k, y⟩, hky, hyr⟩ := List.mem_map.mp hr
    obtain ⟨j, hkj, hj⟩ := validPointsFrom_mem_iff.mp hky
    have hkj2 : k = j := by omega
    obtain ⟨er, her, hmer⟩ := hvalsAt2 j (some y) hj
    obtain ⟨s, hsmem, hsts, hssel⟩ := hmv_present hmer
    refine ⟨k, er, by rw [← hyr], by rw [hkj2]; exact her, ?_, ?_⟩
    · rw [← hsts]
      exact hfirst s hsmem (by rw [hssel]; exact Option.some_ne_none y)
    · rw [← hsts]
      exact hlast s hsmem (by rw [hssel]; exact Option.some_ne_none y)
  constructor
  · -- Before the first present sample: clamp to v₁.
    intro hbefore
    rw [hp1] at hbefore
    -- The head of the valid points is at position k₀ with value y₀.
    rcases hvpl : validPoints (colValues fld.sel (merged samples frames)) with _ | ⟨⟨k₀, y₀⟩, tl⟩
    · exact absurd hvpl hvpne
    · have hheadmem : (((k₀ : ℕ) : ℚ), y₀) ∈ pts := by
        rw [hptsdef, hvpl]
        exact List.mem_map_of_mem _ (List.mem_cons_self _ _)
      have hminN : ∀ z ∈ validPoints (colValues fld.sel (merged samples frames)), k₀ ≤ z.1 := by
        intro z hz
        rw [hvpl] at hz
        rcases List.mem_cons.mp hz with rfl | htail
        · exact le_rfl
        · have hpw := validPointsFrom_pairwise (colValues fld.sel (merged samples frames)) 0
          rw [show validPointsFrom 0 (colValues fld.sel (merged samples frames)) =
            validPoints (colValues fld.sel (merged samples frames)) from rfl, hvpl] at hpw
          exact le_of_lt ((List.pairwise_cons.mp hpw).1 z htail)
      have hmin : ∀ r ∈ pts, ((k₀ : ℕ) : ℚ) ≤ r.1 := by
        intro r hr
        rw [hptsdef] at hr
        obtain ⟨z, hz, hzr⟩ := List.mem_map.mp hr
        rw [← hzr]
        simpa using (Nat.cast_le (α := ℚ)).mpr (hminN z hz)
      -- The head value is v₁.
      have hk₀mem : ((k₀, y₀) : ℕ × ℚ) ∈ validPoints (colValues fld.sel (merged samples frames)) := by
        rw [hvpl]
        exact List.mem_cons_self _ _
      obtain ⟨j₀, hkj₀, hj₀⟩ := validPointsFrom_mem_iff.mp hk₀mem
      have hkj₀2 : j₀ = k₀ := by omega
      rw [hkj₀2] at hj₀
      obtain ⟨e₀, he₀, hme₀⟩ := hvalsAt2 k₀ (some y₀) hj₀
      obtain ⟨s₀, hs₀mem, hs₀ts, hs₀sel⟩ := hmv_present hme₀
      have hge₀ : s₁.timestamp ≤ e₀.1 := by
        rw [← hs₀ts]
        exact hfirst s₀ hs₀mem (by rw [hs₀sel]; exact Option.some_ne_none y₀)
      have hle₀ : e₀.1 ≤ s₁.timestamp := by
        have hk₀m₁ : k₀ ≤ m₁ := hminN (m₁, v₁) hvp₁
        exact combined_mono hk₀m₁ he₀ hm₁
      have he₀ts : e₀.1 = s₁.timestamp := le_antisymm hle₀ hge₀
      have hy₀ : y₀ = v₁ := by
        have h1 : mvCol samples fld.sel s₁.timestamp = some y₀ := by
          rw [← he₀ts]
          exact hme₀
        rw [hmv_at hs₁, hv₁] at h1
        exact (Option.some.inj h1).symm
      -- The frame row is strictly left of every valid point.
      have hxk : ((q.1 : ℕ) : ℚ) ≤ ((k₀ : ℕ) : ℚ) := by
        have : q.1 < k₀ := by
          by_contra hcon
          push_neg at hcon
          have := combined_mono hcon he₀ hCe
          rw [he₀ts] at this
          exact absurd hbefore (not_lt.mpr this)
        exact_mod_cast le_of_lt this
      rw [hpval, npInterpQ_min_clamp ((q.1 : ℕ) : ℚ) pts (((k₀ : ℕ) : ℚ), y₀) hheadmem hxk hmin
        hptspw]
      rw [hy₀]
  · -- After the last present sample: clamp to v₂.
    intro hafter
    rw [hp1] at hafter
    obtain ⟨⟨kL, yL⟩, hkLmem, hkLmax⟩ := exists_max_fst hvpne
    have hkLpts : (((kL : ℕ) : ℚ), yL) ∈ pts := by
      rw [hptsdef]
      exact List.mem_map_of_mem _ hkLmem
    have hmax : ∀ r ∈ pts, r.1 ≤ ((kL : ℕ) : ℚ) := by
      intro r hr
      rw [hptsdef] at hr
      obtain ⟨z, hz, hzr⟩ := List.mem_map.mp hr
      rw [← hzr]
      simpa using (Nat.cast_le (α := ℚ)).mpr (hkLmax z hz)
    obtain ⟨jL, hkjL, hjL⟩ := validPointsFrom_mem_iff.mp hkLmem
    have hkjL2 : jL = kL := by omega
    rw [hkjL2] at hjL
    obtain ⟨eL, heL, hmeL⟩ := hvalsAt2 kL (some yL) hjL
    obtain ⟨sL, hsLmem, hsLts, hsLsel⟩ := hmv_present hmeL
    have hleL : eL.1 ≤ s₂.timestamp := by
      rw [← hsLts]
      exact hlast sL hsLmem (by rw [hsLsel]; exact Option.some_ne_none yL)
    have hgeL : s₂.timestamp ≤ eL.1 := by
      have hm₂kL : m₂ ≤ kL := hkLmax (m₂, v₂) hvp₂
      exact combined_mono hm₂kL hm₂ heL
    have heLts : eL.1 = s₂.timestamp := le_antisymm hleL hgeL
    have hyL : yL = v₂ := by
      have h1 : mvCol samples fld.sel s₂.timestamp = some yL := by
        rw [← heLts]
        exact hmeL
      rw [hmv_at hs₂, hv₂] at h1
      exact (Option.some.inj h1).symm
    have hall : ∀ r ∈ pts, r.1 < ((q.1 : ℕ) : ℚ) := by
      intro r hr
      obtain ⟨k, er, hrk, her, _, hers₂⟩ := hmem_pts r hr
      have hkq : k < q.1 := by
        by_contra hcon
        push_neg at hcon
        have := combined_mono hcon hCe her
        have : e.1 ≤ s₂.timestamp := le_trans this hers₂
        exact absurd hafter (not_lt.mpr this)
      rw [hrk]
      exact_mod_cast hkq
    rw [hpval, npInterpQ_max_clamp ((q.1 : ℕ) : ℚ) pts (((kL : ℕ) : ℚ), yL) hkLpts hall hmax
      hptspw]
    rw [hyL]

/-- Two-sample input where latitude is present only at `t=0` (value 10) and
`t=2` (value 20), for the C5 witness. -/
def c5Samples : List Sample :=
  [⟨0, some 10, none, none, none, none, none, none, none, none⟩,
    ⟨2, some 20, none, none, none, none, none, none, none, none⟩]

/-- Witness for C5: the frame at `t=-1` (before the data) gets exactly 10 and
the frame at `t=5` (after the data) gets exactly 20. -/
theorem c5_witness :
    ((-1 : ℚ), (some (10 : ℚ) : Option ℚ)).2 = some 10 ∧
    ((5 : ℚ), (some (20 : ℚ) : Option ℚ)).2 = some 20 := by
  have hlist : (synchronize_and_interpolate c5Samples [-1, 5]).map
      (fun r => (r.timestamp, LinField.latitude.out r)) =
      [(-1, some 10), (5, some 20)] := by
    simp [c5Samples, synchronize_and_interpolate, LinField.out, merged, combined,
      List.insertionSort, List.orderedInsert, tsLE, matchedRows, List.filter, colValues,
      posInterp, validPoints, validPointsFrom, npInterpQ, List.enum, List.enumFrom,
      List.range, List.range.loop, List.getD, Option.bind, Function.comp]
  have h := c5_clamp .latitude c5Samples [-1, 5] (by simp [c5Samples])
    ⟨0, some 10, none, none, none, none, none, none, none, none⟩
    ⟨2, some 20, none, none, none, none, none, none, none, none⟩
    (by simp [c5Samples]) (by simp [c5Samples]) 10 20 rfl rfl
    (by intro s hs _; simp [c5Samples] at hs; rcases hs with rfl | rfl <;> norm_num)
    (by intro s hs _; simp [c5Samples] at hs; rcases hs with rfl | rfl <;> norm_num)
  constructor
  · exact (h ((-1 : ℚ), some 10) (by rw [hlist]; simp)).1 (by norm_num)
  · exact (h ((5 : ℚ), some 20) (by rw [hlist]; simp)).2 (by norm_num)

/-- One sample, for the C2 witness. -/
def c2WSamples : List Sample := [⟨0, none, none, none, none, none, none, none, none, none⟩]

/-- Witness for C2 (amended) at a two-frame sorted timetable. -/
theorem c2_witness :
    (synchronize_and_interpolate c2WSamples [1, 2]).map (fun r => r.timestamp) = [1, 2] :=
  (c2_length_order c2WSamples [1, 2] (by simp [c2WSamples])
    (by simp [List.sorted_cons])).1

end SRT3D
